import Mathlib

/-!
Verification development for the RDSExpert streaming RDS/RBDS decoder
(src/src/App.tsx) and its TMC location resolver
(src/src/services/tmcLocationService.ts).

Shallow embedding conventions used throughout:
* u16 blocks and timestamps are `Nat`; bit operations use `>>>`, `&&&`, `<<<`.
* The PI code is rendered in the source as a 4-hex-digit upper-case string,
  with the placeholder value "----" before confirmation.  Rendering is
  injective on `Nat` and "----" is outside its range, so PI-valued fields are
  modelled as `Option Nat` (`none` = "----", `some n` = hex rendering of n).
* AF frequencies are rendered in the source as decimal strings
  `(87.5 + 0.1*code).toFixed(1)`; for codes 1..204 this is exactly the
  decimal `(875+code)/10` and the rendering is injective, so frequencies are
  modelled as the natural number `875 + code` (tenths of MHz).
* `Map`/`Record` values are modelled as insertion-ordered association lists
  (`aset` updates in place or appends, like `Map.set`); `Set` values as
  duplicate-free lists with `addUniq`.
* `Date.now()` is passed in explicitly as `now : Nat` (milliseconds);
  locale-formatted time-of-receipt strings, which are derived from `now`
  alone, are modelled by `now` itself.
-/

namespace RDSExpert

/-- Two-digit zero padding, `n.toString().padStart(2, '0')` for naturals. -/
def padNat (n : Nat) : String :=
  let s := toString n
  if s.length < 2 then "0" ++ s else s

/-- Two-digit zero padding for possibly negative numbers (`padStart(2,'0')`
adds at most one character, exactly as for JS numbers whose decimal rendering
is a single character). -/
def padInt (n : Int) : String :=
  let s := toString n
  if s.length < 2 then "0" ++ s else s

/-- Upper-case hex digit for a value below 16. -/
def hexDigit (n : Nat) : Char :=
  if n < 10 then Char.ofNat (48 + n) else Char.ofNat (55 + n)

/-- Rendering `(n & 0xFF).toString(16).toUpperCase().padStart(2,'0')`. -/
def hex2 (n : Nat) : String :=
  String.mk [hexDigit ((n >>> 4) &&& 15), hexDigit (n &&& 15)]

/-- Rendering `n.toString(16).toUpperCase().padStart(4,'0')` for u16 values. -/
def hex4 (n : Nat) : String :=
  String.mk [hexDigit ((n >>> 12) &&& 15), hexDigit ((n >>> 8) &&& 15),
             hexDigit ((n >>> 4) &&& 15), hexDigit (n &&& 15)]

/-- Bit `i` of `n` as a boolean (`!!((n >> i) & 1)`). -/
def bitOf (n i : Nat) : Bool := (n >>> i) &&& 1 == 1

/-- Fixed RDS G2 character table `RDS_G2_MAP` for bytes 0x80..0xBF
(App.tsx). -/
def rdsG2Map : Nat → Option Char
  | 0x80 => some 'á' | 0x81 => some 'à' | 0x82 => some 'é' | 0x83 => some 'è'
  | 0x84 => some 'í' | 0x85 => some 'ì' | 0x86 => some 'ó' | 0x87 => some 'ò'
  | 0x88 => some 'ú' | 0x89 => some 'ù' | 0x8A => some 'Ñ' | 0x8B => some 'Ç'
  | 0x8C => some 'Ş' | 0x8D => some 'Ǧ' | 0x8E => some 'Ȟ' | 0x8F => some '€'
  | 0x90 => some 'â' | 0x91 => some 'ä' | 0x92 => some 'Ä' | 0x93 => some 'ë'
  | 0x94 => some 'Ë' | 0x95 => some 'ï' | 0x96 => some 'Ï' | 0x97 => some 'ö'
  | 0x98 => some 'Ö' | 0x99 => some 'ü' | 0x9A => some 'Ü' | 0x9B => some 'å'
  | 0x9C => some 'Å' | 0x9D => some 'æ' | 0x9E => some 'Æ' | 0x9F => some 'ĳ'
  | 0xA0 => some 'ê' | 0xA1 => some 'î' | 0xA2 => some 'ô' | 0xA3 => some 'û'
  | 0xA4 => some 'Á' | 0xA5 => some 'À' | 0xA6 => some 'É' | 0xA7 => some 'È'
  | 0xA8 => some 'Í' | 0xA9 => some 'Ì' | 0xAA => some 'Ó' | 0xAB => some 'Ò'
  | 0xAC => some 'Ú' | 0xAD => some 'Ù' | 0xAE => some 'ñ' | 0xAF => some 'ç'
  | 0xB0 => some 'ş' | 0xB1 => some 'ǧ' | 0xB2 => some 'ȟ' | 0xB3 => some 'Â'
  | 0xB4 => some 'Ê' | 0xB5 => some 'Î' | 0xB6 => some 'Ô' | 0xB7 => some 'Û'
  | 0xB8 => some '£' | 0xB9 => some '$' | 0xBA => some '€' | 0xBB => some 'ß'
  | 0xBC => some (Char.ofNat 39) | 0xBD => some (Char.ofNat 39)
  | 0xBE => some (Char.ofNat 39) | 0xBF => some (Char.ofNat 39)
  | _ => none

/-- Byte decoder `decodeRdsByte` (App.tsx): G2 table first, then control
characters pass through, then windows-1252.  Windows-1252 differs from
Unicode only in 0x80..0x9F, which the G2 table fully covers, so the
fall-through is the identity code point. -/
def decodeRdsByte (b : Nat) : Char :=
  match rdsG2Map b with
  | some c => c
  | none => Char.ofNat b

/-- RT+ content-type label table `RT_PLUS_LABELS` (App.tsx). -/
def rtPlusLabel : Nat → Option String
  | 1 => some "TITLE" | 2 => some "ALBUM" | 3 => some "TRACK NUMBER"
  | 4 => some "ARTIST" | 5 => some "COMPOSITION" | 6 => some "MOVEMENT"
  | 7 => some "CONDUCTOR" | 8 => some "COMPOSER" | 9 => some "BAND"
  | 10 => some "COMMENT (MUSIC)" | 11 => some "GENRE (MUSIC)"
  | 12 => some "NEWS" | 13 => some "LOCAL NEWS" | 14 => some "STOCKMARKET"
  | 15 => some "SPORT" | 16 => some "LOTTERY" | 17 => some "HOROSCOPE"
  | 18 => some "DAILY DIVERSION (INFO)" | 19 => some "HEALTH INFO"
  | 20 => some "EVENT" | 21 => some "SCENE (INFO)" | 22 => some "CINEMA"
  | 23 => some "STUPIDITY MACHINE" | 24 => some "DATE & TIME"
  | 25 => some "WEATHER" | 26 => some "TRAFFIC INFO" | 27 => some "ALARM (INFO)"
  | 28 => some "ADVERTISEMENT" | 29 => some "WEBSITE/URL"
  | 30 => some "OTHER (INFO)" | 31 => some "STATION NAME (SHORT)"
  | 32 => some "STATION NAME (LONG)" | 33 => some "CURRENT PROGRAM"
  | 34 => some "NEXT PROGRAM" | 35 => some "PART (PROGRAM)"
  | 36 => some "HOST (PROGRAM)" | 37 => some "EDITORIAL STAFF (PROGRAM)"
  | 38 => some "FREQUENCY" | 39 => some "HOMEPAGE" | 40 => some "SUB-CHANNEL"
  | 41 => some "PHONE: HOTLINE" | 42 => some "PHONE: STUDIO"
  | 43 => some "PHONE: OTHER" | 44 => some "SMS: STUDIO"
  | 45 => some "SMS: OTHER" | 46 => some "EMAIL: HOTLINE"
  | 47 => some "EMAIL: STUDIO" | 48 => some "MMS: OTHER" | 49 => some "CHAT"
  | 50 => some "CHAT: CENTRE" | 51 => some "VOTE: QUESTION"
  | 52 => some "VOTE: CENTRE" | 53 => some "TAG 53" | 54 => some "TAG 54"
  | 55 => some "TAG 55" | 56 => some "TAG 56" | 57 => some "TAG 57"
  | 58 => some "TAG 58" | 59 => some "PLACE" | 60 => some "APPOINTMENT"
  | 61 => some "IDENTIFIER" | 62 => some "PURCHASE" | 63 => some "GET DATA"
  | _ => none

/-- TMC duration decoder `getDurationLabel` (App.tsx): label and minutes. -/
def getDurationLabel (code : Nat) : String × Nat :=
  match code with
  | 0 => ("No duration", 0)
  | 1 => ("15 minutes", 15)
  | 2 => ("30 minutes", 30)
  | 3 => ("1 hour", 60)
  | 4 => ("2 hours", 120)
  | 5 => ("3 hours", 180)
  | 6 => ("4 hours", 240)
  | 7 => ("Longer Lasting", 0)
  | _ => ("Unknown", 0)

/-- Event nature `getEventNature` (App.tsx): constant. -/
def getEventNature (_code : Nat) (_diversion : Bool) : String := "Information"

/-- Event category mapper `getEventCategory` (App.tsx). -/
def getEventCategory (code : Nat) : String :=
  if code = 0 then "Unknown"
  else if code ≤ 100 then "Traffic Problem"
  else if code ≤ 199 then "Accident"
  else if code ≤ 300 then "Congestion"
  else if code ≤ 400 then "Delay"
  else if code ≤ 500 then "Road Works"
  else if code ≤ 600 then "Road Closure"
  else if code ≤ 700 then "Restriction"
  else if code ≤ 800 then "Exit/Entry"
  else if code ≤ 900 then "Weather"
  else if code ≤ 1000 then "Road Cond."
  else "Event"

/-- PIN rendering `day + ". " + pad(hour) + ":" + pad(minute)` (App.tsx). -/
def renderPin (day hour minute : Nat) : String :=
  toString day ++ ". " ++ padNat hour ++ ":" ++ padNat minute

/-- MJD to Gregorian conversion `convertMjd` (App.tsx).  The source computes
with JS doubles; for integer MJD inputs the float results of the divisions
are far from integer boundaries, so the floors are those of the exact
fractions.  Each `Math.floor` is realized as the integer floor division of
the equivalent integer-scaled fraction:
`⌊(mjd-15078.2)/365.25⌋ = ⌊(20 mjd - 301564)/7305⌋`,
`⌊yp*365.25⌋ = ⌊1461 yp/4⌋`,
`⌊(mjd-14956.1-fy)/30.6001⌋ = ⌊(10000 mjd - 149561000 - 10000 fy)/306001⌋`,
`⌊mp*30.6001⌋ = ⌊306001 mp/10000⌋`. -/
def convertMjd (mjd : Nat) : Option (Int × Int × Int) :=
  if mjd = 0 then none
  else
    let yp : Int := Int.fdiv (20 * (mjd : Int) - 301564) 7305
    let fy : Int := Int.fdiv (1461 * yp) 4
    let mp : Int := Int.fdiv (10000 * (mjd : Int) - 149561000 - 10000 * fy) 306001
    let fm : Int := Int.fdiv (306001 * mp) 10000
    let day : Int := (mjd : Int) - 14956 - fy - fm
    let k : Int := if mp = 14 ∨ mp = 15 then 1 else 0
    some (day, mp - 1 - k * 12, 1900 + yp + k)

/-- AF byte decoder `decodeAf` (App.tsx): codes 1..204 decode to
`87.5 + 0.1*code` MHz, modelled as `875 + code` tenths of MHz. -/
def decodeAf (code : Nat) : Option Nat :=
  if 1 ≤ code ∧ code ≤ 204 then some (875 + code) else none

/-- Null bytes become a space in PS-family buffers (`safeChar`, App.tsx). -/
def safeChar (c : Char) : Char := if c = Char.ofNat 0 then ' ' else c

/-! Association-list model of JS `Map` / `Record`: `aset` updates an existing
key in place or appends a new one (insertion order), matching `Map.set`. -/

/-- Lookup in an insertion-ordered association list (`Map.get`). -/
def alookup {κ α : Type} [DecidableEq κ] : List (κ × α) → κ → Option α
  | [], _ => none
  | (k, v) :: rest, k' => if k = k' then some v else alookup rest k'

/-- Update-or-append in an insertion-ordered association list (`Map.set`). -/
def aset {κ α : Type} [DecidableEq κ] : List (κ × α) → κ → α → List (κ × α)
  | [], k, v => [(k, v)]
  | (k0, v0) :: rest, k, v =>
      if k0 = k then (k, v) :: rest else (k0, v0) :: aset rest k v

/-- Append-if-absent, modelling `Set.add` / guarded `Array.push`. -/
def addUniq {α : Type} [DecidableEq α] (l : List α) (x : α) : List α :=
  if x ∈ l then l else l ++ [x]

/-- Index of the first occurrence (`Array.indexOf`), total on members. -/
def firstIdx {α : Type} [DecidableEq α] : List α → α → Nat
  | [], _ => 0
  | y :: rest, x => if y = x then 0 else firstIdx rest x + 1

/-! ## Data model (interfaces of App.tsx / types.ts) -/

/-- Per-transmitter Method-B bookkeeping `AfBEntry` (App.tsx): expected list
size from the header, the unordered set of seen AFs, and the pair statistics. -/
structure AfBEntry where
  expected : Nat
  afs : List Nat
  matchCount : Nat
  pairCount : Nat
deriving DecidableEq, Repr

/-- AF list type: `'A' | 'B' | 'Unknown'`. -/
inductive AfType
  | A
  | B
  | unknown
deriving DecidableEq, Repr

/-- Analyzer keys: the canonical group name `"0A"`, ..., or the corruption
marker `"--"` (injective rendering of this type into strings). -/
inductive GroupKey
  | gk (typeNum : Nat) (versionB : Bool)
  | corrupt
deriving DecidableEq, Repr

/-- One RT+ tag (types.ts `RtPlusTag` plus the internal `timestamp`). -/
structure RtPlusTag where
  contentType : Nat
  start : Nat
  length : Nat
  label : String
  text : String
  isCached : Bool
  timestamp : Nat
deriving DecidableEq, Repr

/-- One EON network record (types.ts `EonNetwork`); `pi` is the `Nat` behind
the 4-hex-digit key, `pin` and `linkageInfo` keep the source's rendered
strings. -/
structure EonNetwork where
  pi : Nat
  ps : String
  psBuffer : List Char
  tp : Bool
  ta : Bool
  pty : Nat
  pin : String
  linkageInfo : String
  af : List Nat
  mappedFreqs : List (Nat × Nat)
  lastUpdate : Nat
deriving DecidableEq, Repr

/-- TMC service info (types.ts `TmcServiceInfo`). -/
structure TmcServiceInfo where
  ltn : Nat
  sid : Nat
  afi : Bool
  mode : Nat
  providerName : String
deriving DecidableEq, Repr

/-- Expiry field of a TMC message: the source stores `"--:--:--"` when the
duration code has no minutes, `"Indefinite"` for code 7, or a formatted clock
time derived from `now + minutes*60000`. -/
inductive ExpiresTime
  | dashes
  | indefinite
  | at (t : Nat)
deriving DecidableEq, Repr

/-- One TMC user message (types.ts `TmcMessage`); receipt time is the `now`
millisecond timestamp behind the source's formatted string. -/
structure TmcMessage where
  id : Nat
  receivedTime : Nat
  expiresTime : ExpiresTime
  isSystem : Bool
  label : String
  cc : Nat
  eventCode : Nat
  locationCode : Nat
  extent : Nat
  durationCode : Nat
  direction : Bool
  diversion : Bool
  urgency : String
  nature : String
  durationLabel : String
  updateCount : Nat
deriving DecidableEq, Repr

/-- Raw group buffered for the hex viewer (types.ts `RawGroup`). -/
structure RawGroup where
  type : GroupKey
  blocks : Nat × Nat × Nat × Nat
  time : Nat
deriving DecidableEq, Repr

/-- PS history entry (types.ts `PsHistoryItem`). -/
structure PsHistoryItem where
  time : Nat
  pi : Option Nat
  ps : String
  pty : Nat
deriving DecidableEq, Repr

/-- RT history entry (types.ts `RtHistoryItem`). -/
structure RtHistoryItem where
  time : Nat
  text : String
deriving DecidableEq, Repr

/-- Host-controlled flags read by the decoder through refs
(`analyzerActiveRef`, `tmcActiveRef`, `tmcPausedRef`). -/
structure Flags where
  analyzerActive : Bool
  tmcActive : Bool
  tmcPaused : Bool
deriving DecidableEq, Repr

/-- Full decoder state: the `DecoderState` ref of App.tsx, together with the
sibling refs mutated by the same code paths (`berHistoryRef`,
`tmcIdCounter`, `packetCountRef`). -/
structure DecoderState where
  psBuffer : List Char
  psMask : List Bool
  lpsBuffer : List Char
  ptynBuffer : List Char
  rtBuffer0 : List Char
  rtBuffer1 : List Char
  rtMask0 : List Bool
  rtMask1 : List Bool
  rtCandidateString : String
  rtStableSince : Nat
  afSet : List Nat
  afListHead : Option Nat
  lastGroup0A3 : Option Nat
  afBMap : List (Nat × AfBEntry)
  currentMethodBGroup : Option Nat
  afType : AfType
  currentPi : Option Nat
  piCandidate : Option Nat
  piCounter : Nat
  ecc : String
  lic : String
  pin : String
  localTime : String
  utcTime : String
  pty : Nat
  tp : Bool
  ta : Bool
  ms : Bool
  diStereo : Bool
  diArtificialHead : Bool
  diCompressed : Bool
  diDynamicPty : Bool
  abFlag : Bool
  rtPlusTags : List (Nat × RtPlusTag)
  rtPlusItemRunning : Bool
  rtPlusItemToggle : Bool
  hasRtPlus : Bool
  hasEon : Bool
  hasTmc : Bool
  rtPlusOdaGroup : Option Nat
  eonMap : List (Nat × EonNetwork)
  tmcServiceInfo : TmcServiceInfo
  tmcBuffer : List TmcMessage
  groupCounts : List (GroupKey × Nat)
  groupTotal : Nat
  groupSequence : List GroupKey
  graceCounter : Nat
  isDirty : Bool
  rawGroupBuffer : List RawGroup
  piEstablishmentTime : Nat
  psHistoryLogged : Bool
  psCandidateString : String
  psStableSince : Nat
  psHistoryBuffer : List PsHistoryItem
  rtHistoryBuffer : List RtHistoryItem
  berHistory : List Nat
  tmcIdCounter : Nat
  packetCount : Nat
deriving DecidableEq, Repr

/-- Initial TMC service info. -/
def initialTmcServiceInfo : TmcServiceInfo :=
  { ltn := 0, sid := 0, afi := false, mode := 0, providerName := "[Unavailable]" }

/-- Initial decoder state (the initializer of the `decoderState` ref plus the
initial values of the sibling refs). -/
def initialState : DecoderState where
  psBuffer := List.replicate 8 ' '
  psMask := List.replicate 8 false
  lpsBuffer := List.replicate 32 ' '
  ptynBuffer := List.replicate 8 ' '
  rtBuffer0 := List.replicate 64 ' '
  rtBuffer1 := List.replicate 64 ' '
  rtMask0 := List.replicate 64 false
  rtMask1 := List.replicate 64 false
  rtCandidateString := ""
  rtStableSince := 0
  afSet := []
  afListHead := none
  lastGroup0A3 := none
  afBMap := []
  currentMethodBGroup := none
  afType := AfType.unknown
  currentPi := none
  piCandidate := none
  piCounter := 0
  ecc := ""
  lic := ""
  pin := ""
  localTime := ""
  utcTime := ""
  pty := 0
  tp := false
  ta := false
  ms := false
  diStereo := false
  diArtificialHead := false
  diCompressed := false
  diDynamicPty := false
  abFlag := false
  rtPlusTags := []
  rtPlusItemRunning := false
  rtPlusItemToggle := false
  hasRtPlus := false
  hasEon := false
  hasTmc := false
  rtPlusOdaGroup := none
  eonMap := []
  tmcServiceInfo := initialTmcServiceInfo
  tmcBuffer := []
  groupCounts := []
  groupTotal := 0
  groupSequence := []
  graceCounter := 10
  isDirty := false
  rawGroupBuffer := []
  piEstablishmentTime := 0
  psHistoryLogged := false
  psCandidateString := "        "
  psStableSince := 0
  psHistoryBuffer := []
  rtHistoryBuffer := []
  berHistory := []
  tmcIdCounter := 0
  packetCount := 0

/-! ## PI tracker and deep station reset (decodeRdsGroup, Block A part) -/

/-- Deep reset of all station data on a confirmed PI change (App.tsx,
`decodeRdsGroup`): adopts the candidate as `currentPi` and clears every
per-station field; the BER window ref is overwritten with 40 zeros and the
grace counter restarts. -/
def deepResetFields (s : DecoderState) (now : Nat) : DecoderState :=
  { s with
    currentPi := s.piCandidate,
    psBuffer := List.replicate 8 ' ',
    lpsBuffer := List.replicate 32 ' ',
    ptynBuffer := List.replicate 8 ' ',
    rtBuffer0 := List.replicate 64 ' ',
    rtBuffer1 := List.replicate 64 ' ',
    rtMask0 := List.replicate 64 false,
    rtMask1 := List.replicate 64 false,
    rtCandidateString := "",
    rtStableSince := 0,
    afSet := [],
    afListHead := none,
    afBMap := [],
    currentMethodBGroup := none,
    eonMap := [],
    tmcBuffer := [],
    rtPlusTags := [],
    rtPlusItemRunning := false,
    rtPlusItemToggle := false,
    hasRtPlus := false,
    hasEon := false,
    hasTmc := false,
    ecc := "",
    lic := "",
    pin := "",
    localTime := "",
    utcTime := "",
    pty := 0,
    tp := false,
    ta := false,
    ms := false,
    diStereo := false,
    diArtificialHead := false,
    diCompressed := false,
    diDynamicPty := false,
    abFlag := false,
    rtPlusOdaGroup := none,
    lastGroup0A3 := none,
    afType := AfType.unknown,
    tmcServiceInfo := initialTmcServiceInfo,
    groupSequence := [],
    groupCounts := [],
    groupTotal := 0,
    piEstablishmentTime := now,
    psHistoryLogged := false,
    psHistoryBuffer := [],
    rtHistoryBuffer := [],
    psCandidateString := "        ",
    psStableSince := 0,
    berHistory := List.replicate 40 0,
    graceCounter := 10 }

/-- Candidate tracking of the Block-A phase: mark dirty; a repeated
candidate bumps the counter, a fresh one replaces the candidate and restarts
the counter at 1. -/
def piTrack (g1 : Nat) (s : DecoderState) : DecoderState :=
  if some g1 = s.piCandidate then { s with isDirty := true, piCounter := s.piCounter + 1 }
  else { s with isDirty := true, piCandidate := some g1, piCounter := 1 }

/-- Block-A PI tracking at the top of `decodeRdsGroup`: track the candidate,
and on confirmation (`piCounter >= 4`, or any observation while `currentPi`
is still the placeholder) of a value different from `currentPi` perform the
deep reset. -/
def piPhase (g1 now : Nat) (s0 : DecoderState) : DecoderState :=
  let s := piTrack g1 s0
  if 4 ≤ s.piCounter ∨ (s.currentPi = none ∧ 1 ≤ s.piCounter) then
    if s.piCandidate ≠ s.currentPi then deepResetFields s now else s
  else s

/-! ## Group handlers (decodeRdsGroup dispatch targets) -/

/-- Validity heuristic for a Method-B candidate list (App.tsx): plausibly
full.  `size >= expected * 0.75` is computed as `4*size >= 3*expected`,
which is exact (0.75 is a dyadic double, the product never overflows). -/
def afValidCandidate (e : AfBEntry) : Bool :=
  if e.expected = 0 then false
  else if 3 * e.expected ≤ 4 * e.afs.length then true
  else if e.expected ≤ 2 ∧ e.afs.length = e.expected then true
  else if 5 < e.expected ∧ 4 < e.afs.length then true
  else false

/-- AF engine update of a 0A group (App.tsx): runs only when B3 changed.
Header bytes declare the transmitter frequency and expected count; frequency
pairs populate `afSet` and the Method-B map; finally the AF type is
recomputed.  `matchCount/pairCount > 0.35` is computed as
`20*matchCount > 7*pairCount`: the double division agrees with exact
rational comparison for every count reachable here (a disagreement would
need `pairCount` beyond 10^16, while it grows by 1 per processed group). -/
def afUpdate (g3 : Nat) (s : DecoderState) : DecoderState :=
  let af1 := (g3 >>> 8) &&& 255
  let af2 := g3 &&& 255
  let headerUpd : List Nat × Option Nat × List (Nat × AfBEntry) × Option Nat :=
    if 225 ≤ af1 ∧ af1 ≤ 249 then
      match decodeAf af2 with
      | some h =>
          let setA := addUniq s.afSet h
          let headIdx := firstIdx setA h
          let setB := if 0 < headIdx then h :: setA.eraseIdx headIdx else setA
          let entry : AfBEntry :=
            match alookup s.afBMap h with
            | some e => { e with expected := af1 - 224 }
            | none => { expected := af1 - 224, afs := [], matchCount := 0, pairCount := 0 }
          (setB, some h, aset s.afBMap h entry, some h)
      | none => (s.afSet, s.afListHead, s.afBMap, s.currentMethodBGroup)
    else
      let setA := match decodeAf af1 with
        | some f => addUniq s.afSet f
        | none => s.afSet
      let setB := match decodeAf af2 with
        | some f => addUniq setA f
        | none => setA
      (setB, s.afListHead, s.afBMap, s.currentMethodBGroup)
  let afSet1 := headerUpd.1
  let head1 := headerUpd.2.1
  let map1 := headerUpd.2.2.1
  let cur1 := headerUpd.2.2.2
  let map2 :=
    if (1 ≤ af1 ∧ af1 ≤ 204) ∧ (1 ≤ af2 ∧ af2 ≤ 204) then
      match cur1 with
      | some h =>
          match alookup map1 h with
          | some e =>
              aset map1 h
                { e with
                  afs := addUniq (addUniq e.afs (875 + af1)) (875 + af2),
                  pairCount := e.pairCount + 1,
                  matchCount := e.matchCount +
                    (if 875 + af1 = h ∨ 875 + af2 = h then 1 else 0) }
          | none => map1
      | none => map1
    else map1
  let valid := (map2.map Prod.snd).filter afValidCandidate
  let explicitB : Bool :=
    match valid with
    | [e] => decide (0 < e.pairCount) && decide (7 * e.pairCount < 20 * e.matchCount)
    | _ => false
  { s with
    lastGroup0A3 := some g3,
    afSet := afSet1,
    afListHead := head1,
    afBMap := map2,
    currentMethodBGroup := cur1,
    afType := if 1 < valid.length ∨ explicitB = true then AfType.B else AfType.A }

/-- Group 0A/0B handler (PS, TA/MS/DI flags, AF on 0A when B3 changed). -/
def handle0 (isGroupA : Bool) (g2 g3 g4 : Nat) (s : DecoderState) : DecoderState :=
  let ta := bitOf g2 4
  let ms := bitOf g2 3
  let diBit := bitOf g2 2
  let address := g2 &&& 3
  let char1 := decodeRdsByte ((g4 >>> 8) &&& 255)
  let char2 := decodeRdsByte (g4 &&& 255)
  let s1 :=
    { s with
      ta := ta,
      ms := ms,
      diDynamicPty := if address = 0 then diBit else s.diDynamicPty,
      diCompressed := if address = 1 then diBit else s.diCompressed,
      diArtificialHead := if address = 2 then diBit else s.diArtificialHead,
      diStereo := if address = 3 then diBit else s.diStereo,
      psBuffer :=
        (s.psBuffer.set (address * 2) (safeChar char1)).set (address * 2 + 1) (safeChar char2) }
  if isGroupA = true ∧ s1.lastGroup0A3 ≠ some g3 then afUpdate g3 s1 else s1

/-- Dedup key predicate of the TMC buffer search (App.tsx, `findIndex`). -/
def tmcMatches (loc ev : Nat) (dir : Bool) (ext : Nat) (m : TmcMessage) : Bool :=
  m.locationCode == loc && m.eventCode == ev && m.direction == dir && m.extent == ext

/-- Mutation of the first list element satisfying `p`
(`findIndex` + in-place update in the source). -/
def updateFirstMatch {α : Type} (p : α → Bool) (f : α → α) : List α → List α
  | [] => []
  | x :: xs => if p x then f x :: xs else x :: updateFirstMatch p f xs

/-- Expiry of a user message: `now + minutes` when the duration code carries
minutes, `Indefinite` for code 7, the dash placeholder otherwise. -/
def tmcExpires (now durationCode : Nat) : ExpiresTime :=
  if 0 < (getDurationLabel durationCode).2 then
    ExpiresTime.at (now + (getDurationLabel durationCode).2 * 60000)
  else if durationCode = 7 then ExpiresTime.indefinite
  else ExpiresTime.dashes

/-- In-place update of a stored message on a dedup hit: receipt time and
expiry are overwritten, the update counter incremented
(`(existing.updateCount || 1) + 1`). -/
def tmcUpdateExisting (now : Nat) (expires : ExpiresTime) (m : TmcMessage) : TmcMessage :=
  { m with receivedTime := now, expiresTime := expires,
           updateCount := (if m.updateCount = 0 then 1 else m.updateCount) + 1 }

/-- Freshly decoded user message of a 8A group with id `idc`. -/
def mkTmcMessage (idc now g2 g3 g4 : Nat) : TmcMessage :=
  let durationCode := (g3 >>> 13) &&& 7
  let diversion := bitOf g3 12
  let eventCode := ((g3 &&& 255) <<< 3) ||| ((g4 >>> 12) &&& 7)
  { id := idc, receivedTime := now, expiresTime := tmcExpires now durationCode,
    isSystem := false, label := getEventCategory eventCode, cc := g2 &&& 7,
    eventCode := eventCode, locationCode := g4 &&& 4095,
    extent := (g3 >>> 8) &&& 7, durationCode := durationCode,
    direction := bitOf g3 11, diversion := diversion, urgency := "Normal",
    nature := getEventNature eventCode diversion,
    durationLabel := (getDurationLabel durationCode).1, updateCount := 1 }

/-- Group 8A handler (App.tsx): always flags `hasTmc`; when TMC is active and
not paused, decodes service info (tuning flag set; the source's
`(variant & 0x0F) === 8 || true` guard is identically true) or a user
message with dedup/merge and a 100-entry cap. -/
def handleTmc (flags : Flags) (now g2 g3 g4 : Nat) (s : DecoderState) : DecoderState :=
  let upd : TmcServiceInfo × List TmcMessage × Nat :=
    if flags.tmcActive = true ∧ flags.tmcPaused = false then
      if bitOf g2 4 then
        let ltn := (g3 >>> 10) &&& 63
        let afi := bitOf g3 9
        let mode := (g3 >>> 8) &&& 1
        let sid := (g3 >>> 2) &&& 63
        (if 0 < ltn ∨ 0 < sid then
           { s.tmcServiceInfo with ltn := ltn, sid := sid, afi := afi, mode := mode }
         else s.tmcServiceInfo,
         s.tmcBuffer, s.tmcIdCounter)
      else
        let direction := bitOf g3 11
        let extent := (g3 >>> 8) &&& 7
        let eventCode := ((g3 &&& 255) <<< 3) ||| ((g4 >>> 12) &&& 7)
        let location := g4 &&& 4095
        let expires := tmcExpires now ((g3 >>> 13) &&& 7)
        if s.tmcBuffer.any (tmcMatches location eventCode direction extent) then
          (s.tmcServiceInfo,
           updateFirstMatch (tmcMatches location eventCode direction extent)
             (tmcUpdateExisting now expires) s.tmcBuffer,
           s.tmcIdCounter)
        else
          let buf := mkTmcMessage s.tmcIdCounter now g2 g3 g4 :: s.tmcBuffer
          (s.tmcServiceInfo, if 100 < buf.length then buf.dropLast else buf,
           s.tmcIdCounter + 1)
    else (s.tmcServiceInfo, s.tmcBuffer, s.tmcIdCounter)
  { s with hasTmc := true, tmcServiceInfo := upd.1, tmcBuffer := upd.2.1,
           tmcIdCounter := upd.2.2 }

/-- Ascending insertion into a sorted list. -/
def insertAsc (x : Nat) : List Nat → List Nat
  | [] => [x]
  | y :: ys => if y ≤ x then y :: insertAsc x ys else x :: y :: ys

/-- Ascending numeric sort (`af.sort((a,b) => parseFloat(a) - parseFloat(b))`;
the EON AF list is duplicate-free, so any ascending sort is the source's). -/
def sortAsc : List Nat → List Nat
  | [] => []
  | x :: xs => insertAsc x (sortAsc xs)

/-- Group 14A handler (EON): finds or creates the network keyed by B4 and
applies the variant update. -/
def handleEon (now g2 g3 g4 : Nat) (s : DecoderState) : DecoderState :=
  let key := g4
  let net0 : EonNetwork :=
    match alookup s.eonMap key with
    | some n => n
    | none =>
        { pi := key, ps := "        ", psBuffer := List.replicate 8 ' ',
          tp := false, ta := false, pty := 0, pin := "", linkageInfo := "",
          af := [], mappedFreqs := [], lastUpdate := now }
  let net1 := { net0 with lastUpdate := now, tp := bitOf g2 4 }
  let variant := g2 &&& 15
  let net2 :=
    if variant ≤ 3 then
      let c1 := safeChar (decodeRdsByte ((g3 >>> 8) &&& 255))
      let c2 := safeChar (decodeRdsByte (g3 &&& 255))
      let buf := (net1.psBuffer.set (variant * 2) c1).set (variant * 2 + 1) c2
      { net1 with psBuffer := buf, ps := String.mk buf }
    else if variant = 4 then
      let a1 := match decodeAf ((g3 >>> 8) &&& 255) with
        | some f => if f ∈ net1.af then net1.af else net1.af ++ [f]
        | none => net1.af
      let a2 := match decodeAf (g3 &&& 255) with
        | some f => if f ∈ a1 then a1 else a1 ++ [f]
        | none => a1
      { net1 with af := sortAsc a2 }
    else if 5 ≤ variant ∧ variant ≤ 9 then
      match decodeAf (g3 >>> 8), decodeAf (g3 &&& 255) with
      | some fm, some fd =>
          if (fm, fd) ∈ net1.mappedFreqs then net1
          else
            let l := net1.mappedFreqs ++ [(fm, fd)]
            { net1 with mappedFreqs := if 4 < l.length then l.tail else l }
      | _, _ => net1
    else if variant = 12 then { net1 with linkageInfo := hex4 g3 }
    else if variant = 13 then { net1 with pty := (g3 >>> 11) &&& 31, ta := bitOf g3 0 }
    else if variant = 14 then
      let pinDay := (g3 >>> 11) &&& 31
      let pinHour := (g3 >>> 6) &&& 31
      let pinMin := g3 &&& 63
      if pinDay ≠ 0 then { net1 with pin := renderPin pinDay pinHour pinMin } else net1
    else net1
  { s with hasEon := true, eonMap := aset s.eonMap key net2 }

/-- Group 1A handler (ECC/LIC variants and PIN). -/
def handle1 (g3 g4 : Nat) (s : DecoderState) : DecoderState :=
  let variant := (g3 >>> 12) &&& 7
  let pinDay := (g4 >>> 11) &&& 31
  let pinHour := (g4 >>> 6) &&& 31
  let pinMin := g4 &&& 63
  { s with
    ecc := if variant = 0 then hex2 (g3 &&& 255) else s.ecc,
    lic := if variant = 3 then hex2 (g3 &&& 255) else s.lic,
    pin := if pinDay ≠ 0 then renderPin pinDay pinHour pinMin else s.pin }

/-- Group 2A/2B handler (RadioText): on an A/B toggle transition, mark all
RT+ tags stale and clear the newly-active buffer and mask, then write the
addressed characters into the active buffer and set their mask bits. -/
def handleRt (isGroup2A : Bool) (g2 g3 g4 : Nat) (s : DecoderState) : DecoderState :=
  let textAb := bitOf g2 4
  let flip := s.abFlag ≠ textAb
  let tags :=
    if flip then s.rtPlusTags.map (fun p => (p.1, { p.2 with isCached := true }))
    else s.rtPlusTags
  let buf0 := if flip ∧ textAb = false then List.replicate 64 ' ' else s.rtBuffer0
  let buf1 := if flip ∧ textAb = true then List.replicate 64 ' ' else s.rtBuffer1
  let mask0 := if flip ∧ textAb = false then List.replicate 64 false else s.rtMask0
  let mask1 := if flip ∧ textAb = true then List.replicate 64 false else s.rtMask1
  let address := g2 &&& 15
  let target := if textAb then buf1 else buf0
  let tmask := if textAb then mask1 else mask0
  let written : List Char × List Bool :=
    if isGroup2A then
      let c1 := decodeRdsByte ((g3 >>> 8) &&& 255)
      let c2 := decodeRdsByte (g3 &&& 255)
      let c3 := decodeRdsByte ((g4 >>> 8) &&& 255)
      let c4 := decodeRdsByte (g4 &&& 255)
      let idx := address * 4
      if idx < 64 then
        ((((target.set idx c1).set (idx + 1) c2).set (idx + 2) c3).set (idx + 3) c4,
         (((tmask.set idx true).set (idx + 1) true).set (idx + 2) true).set (idx + 3) true)
      else (target, tmask)
    else
      let c1 := decodeRdsByte ((g4 >>> 8) &&& 255)
      let c2 := decodeRdsByte (g4 &&& 255)
      let idx := address * 2
      if idx < 32 then
        ((target.set idx c1).set (idx + 1) c2,
         (tmask.set idx true).set (idx + 1) true)
      else (target, tmask)
  { s with
    abFlag := textAb,
    rtPlusTags := tags,
    rtBuffer0 := if textAb then buf0 else written.1,
    rtBuffer1 := if textAb then written.1 else buf1,
    rtMask0 := if textAb then mask0 else written.2,
    rtMask1 := if textAb then written.2 else mask1 }

/-- Group 3A handler: RT+ ODA binding on AID 0x4BD7. -/
def handle3A (g2 g3 g4 : Nat) (s : DecoderState) : DecoderState :=
  if g3 = 0x4BD7 ∨ g4 = 0x4BD7 then { s with rtPlusOdaGroup := some (g2 &&& 31) }
  else s

/-- Whitespace trim of the two ends of a character list (`String.trim` of the
source; only the space character can appear after control stripping). -/
def trimSpaces (l : List Char) : List Char :=
  ((l.dropWhile (fun c => c == ' ')).reverse.dropWhile (fun c => c == ' ')).reverse

/-- RT+ tag extraction `processTag` (App.tsx): slices the active RT buffer,
strips control characters, trims, and stores a fresh tag when non-empty.
The surrounding `state.isDirty = true` is a no-op here because the PI phase
already marked the state dirty on every path reaching a handler. -/
def processTag (now : Nat) (abFlag : Bool) (rt0 rt1 : List Char) (t st ln : Nat)
    (tags : List (Nat × RtPlusTag)) : List (Nat × RtPlusTag) :=
  if t = 0 then tags
  else
    let currentRt := if abFlag then rt1 else rt0
    if currentRt.length ≤ st then tags
    else
      let text :=
        trimSpaces (((currentRt.drop st).take (ln + 1)).filter (fun c => decide (32 ≤ c.toNat)))
      if text = [] then tags
      else
        aset tags t
          { contentType := t, start := st, length := ln,
            label := (rtPlusLabel t).getD ("TAG " ++ toString t),
            text := String.mk text, isCached := false, timestamp := now }

/-- Stable ascending insertion by timestamp. -/
def insertTs (x : Nat × RtPlusTag) : List (Nat × RtPlusTag) → List (Nat × RtPlusTag)
  | [] => [x]
  | y :: ys => if y.2.timestamp < x.2.timestamp then y :: insertTs x ys else x :: y :: ys

/-- Stable sort by timestamp (the source's stable `Array.sort` on
`a.timestamp - b.timestamp`). -/
def sortTs : List (Nat × RtPlusTag) → List (Nat × RtPlusTag)
  | [] => []
  | x :: xs => insertTs x (sortTs xs)

/-- Bound of 6 on the RT+ tag map: delete the oldest-by-timestamp keys
(sorted once, earliest insertions first among ties) until 6 remain. -/
def capTags (l : List (Nat × RtPlusTag)) : List (Nat × RtPlusTag) :=
  if 6 < l.length then
    let oldestKeys := ((sortTs l).take (l.length - 6)).map Prod.fst
    l.filter (fun p => !(oldestKeys.contains p.1))
  else l

/-- RT+ payload handler (group 11A or the ODA-advertised carrier). -/
def handleRtPlus (now g2 g3 g4 : Nat) (s : DecoderState) : DecoderState :=
  let type1 := (g3 >>> 13) &&& 7
  let start1 := (g3 >>> 7) &&& 63
  let len1 := (g3 >>> 1) &&& 63
  let type2 := (g4 >>> 11) &&& 31
  let start2 := (g4 >>> 5) &&& 63
  let len2 := g4 &&& 31
  let tags1 := processTag now s.abFlag s.rtBuffer0 s.rtBuffer1 type1 start1 len1 s.rtPlusTags
  let tags2 := processTag now s.abFlag s.rtBuffer0 s.rtBuffer1 type2 start2 len2 tags1
  { s with hasRtPlus := true, rtPlusItemRunning := bitOf g2 4,
           rtPlusItemToggle := bitOf g2 3, rtPlusTags := capTags tags2 }

/-- Group 4A handler (clock time): MJD and minute counters, offset applied
in signed minutes with single-step wraparound, published as
`DD/MM/YYYY HH:MM`. -/
def handle4A (g2 g3 g4 : Nat) (s : DecoderState) : DecoderState :=
  let mjdCalc := ((g2 &&& 3) <<< 15) ||| ((g3 &&& 0xFFFE) >>> 1)
  match convertMjd mjdCalc with
  | none => s
  | some (day, month, year) =>
      let t := ((g3 &&& 1) <<< 15) ||| (g4 >>> 1)
      let utcHour := (t >>> 11) &&& 31
      let utcMin := (t >>> 5) &&& 63
      let offsetSign := (g4 >>> 4) &&& 1
      let offsetVal := g4 &&& 15
      let dateStr := padInt day ++ "/" ++ padInt month ++ "/" ++ toString year
      let tot0 : Int := ((utcHour * 60 + utcMin : Nat) : Int)
      let tot1 : Int :=
        if offsetSign = 1 then tot0 - (offsetVal : Int) * 30
        else tot0 + (offsetVal : Int) * 30
      let tot2 : Int := if tot1 < 0 then tot1 + 1440 else tot1
      let tot3 : Int := if 1440 ≤ tot2 then tot2 - 1440 else tot2
      { s with
        utcTime := dateStr ++ " " ++ padNat utcHour ++ ":" ++ padNat utcMin,
        localTime := dateStr ++ " " ++ padInt (tot3 / 60) ++ ":" ++ padInt (tot3 % 60) }

/-- Group 10A handler (PTYN). -/
def handlePtyn (g2 g3 g4 : Nat) (s : DecoderState) : DecoderState :=
  let address := g2 &&& 1
  let c1 := decodeRdsByte ((g3 >>> 8) &&& 255)
  let c2 := decodeRdsByte (g3 &&& 255)
  let c3 := decodeRdsByte ((g4 >>> 8) &&& 255)
  let c4 := decodeRdsByte (g4 &&& 255)
  let idx := address * 4
  { s with
    ptynBuffer :=
      if idx < 8 then
        (((s.ptynBuffer.set idx c1).set (idx + 1) c2).set (idx + 2) c3).set (idx + 3) c4
      else s.ptynBuffer }

/-- Group 15A/15B handler (Long PS). -/
def handleLps (isGroup15A : Bool) (g2 g3 g4 : Nat) (s : DecoderState) : DecoderState :=
  let address := g2 &&& 15
  { s with
    lpsBuffer :=
      if isGroup15A then
        let c1 := decodeRdsByte ((g3 >>> 8) &&& 255)
        let c2 := decodeRdsByte (g3 &&& 255)
        let c3 := decodeRdsByte ((g4 >>> 8) &&& 255)
        let c4 := decodeRdsByte (g4 &&& 255)
        let idx := address * 4
        if idx < 32 then
          (((s.lpsBuffer.set idx c1).set (idx + 1) c2).set (idx + 2) c3).set (idx + 3) c4
        else s.lpsBuffer
      else
        let c1 := decodeRdsByte ((g4 >>> 8) &&& 255)
        let c2 := decodeRdsByte (g4 &&& 255)
        let idx := address * 2
        if idx < 32 then (s.lpsBuffer.set idx c1).set (idx + 1) c2
        else s.lpsBuffer }

/-! ## Dispatch -/

/-- Canonical analyzer key of a group (`type` and `A`/`B` version bit). -/
def groupKeyOf (g2 : Nat) : GroupKey :=
  let typeVal := (g2 >>> 11) &&& 31
  GroupKey.gk (typeVal >>> 1) (typeVal &&& 1 == 1)

/-- Analyzer count increment (`groupCounts[s] = (groupCounts[s] || 0) + 1`). -/
def bumpCount (m : List (GroupKey × Nat)) (k : GroupKey) : List (GroupKey × Nat) :=
  aset m k ((alookup m k).getD 0 + 1)

/-- Analyzer sequence push with the 3000-entry cap (trim 1000 on overflow). -/
def pushSequence (seq : List GroupKey) (k : GroupKey) : List GroupKey :=
  let seq2 := seq ++ [k]
  if 3000 < seq2.length then seq2.drop 1000 else seq2

/-- Per-group bookkeeping shared by every group type: raw-buffer push,
analyzer counters when active, and the unconditional `tp`/`pty` update. -/
def commonPhase (flags : Flags) (now g1 g2 g3 g4 : Nat) (s : DecoderState) : DecoderState :=
  let key := groupKeyOf g2
  { s with
    rawGroupBuffer := s.rawGroupBuffer ++ [{ type := key, blocks := (g1, g2, g3, g4), time := now }],
    groupCounts := if flags.analyzerActive then bumpCount s.groupCounts key else s.groupCounts,
    groupTotal := if flags.analyzerActive then s.groupTotal + 1 else s.groupTotal,
    groupSequence := if flags.analyzerActive then pushSequence s.groupSequence key else s.groupSequence,
    tp := bitOf g2 10,
    pty := (g2 >>> 5) &&& 31 }

/-- RT+ carrier test for the ODA-advertised group
(`state.rtPlusOdaGroup && groupTypeVal === state.rtPlusOdaGroup`; a zero
binding is falsy in the source). -/
def odaCarries (oda : Option Nat) (typeVal : Nat) : Bool :=
  match oda with
  | some v => v != 0 && typeVal == v
  | none => false

/-- Group dispatch chain of `decodeRdsGroup` (the if/else cascade). -/
def dispatchGroup (flags : Flags) (now g1 g2 g3 g4 : Nat) (s : DecoderState) : DecoderState :=
  let typeVal := (g2 >>> 11) &&& 31
  if typeVal = 0 ∨ typeVal = 1 then handle0 (typeVal == 0) g2 g3 g4 s
  else if typeVal = 16 then handleTmc flags now g2 g3 g4 s
  else if typeVal = 28 then handleEon now g2 g3 g4 s
  else if typeVal = 2 then handle1 g3 g4 s
  else if typeVal = 4 ∨ typeVal = 5 then handleRt (typeVal == 4) g2 g3 g4 s
  else if typeVal = 6 then handle3A g2 g3 g4 s
  else if typeVal = 24 ∨ odaCarries s.rtPlusOdaGroup typeVal = true then
    handleRtPlus now g2 g3 g4 s
  else if typeVal = 8 then handle4A g2 g3 g4 s
  else if typeVal = 20 then handlePtyn g2 g3 g4 s
  else if typeVal = 30 ∨ typeVal = 31 then handleLps (typeVal == 30) g2 g3 g4 s
  else s

/-- Everything `decodeRdsGroup` does after the Block-A PI phase. -/
def handleGroupBody (flags : Flags) (now g1 g2 g3 g4 : Nat) (s : DecoderState) : DecoderState :=
  dispatchGroup flags now g1 g2 g3 g4 (commonPhase flags now g1 g2 g3 g4 s)

/-- One full `decodeRdsGroup` call on blocks `(g1, g2, g3, g4)`. -/
def decodeRdsGroup (flags : Flags) (now g1 g2 g3 g4 : Nat) (s : DecoderState) : DecoderState :=
  handleGroupBody flags now g1 g2 g3 g4 (piPhase g1 now s)

/-- A group as a 4-block tuple. -/
structure GroupBlocks where
  g1 : Nat
  g2 : Nat
  g3 : Nat
  g4 : Nat
deriving DecidableEq, Repr

/-- Decode a list of groups in arrival order. -/
def runGroups (flags : Flags) (now : Nat) (gs : List GroupBlocks) (s : DecoderState) : DecoderState :=
  gs.foldl (fun s g => decodeRdsGroup flags now g.g1 g.g2 g.g3 g.g4 s) s

/-! ## Frame ingester outcomes and the BER window (ws.onmessage, updateBer) -/

/-- Sliding-window update `updateBer` (App.tsx): push the outcome bit, shift
the oldest entry out when the window exceeds 40. -/
def updateBer (isError : Bool) (w : List Nat) : List Nat :=
  let w2 := w ++ [if isError then 1 else 0]
  if 40 < w2.length then w2.tail else w2

/-- Success bookkeeping after a decoded group: during grace the counter is
decremented and the window is untouched, afterwards a 0 is pushed. -/
def berAdvanceSuccess (s : DecoderState) : DecoderState :=
  if s.graceCounter = 0 then { s with berHistory := updateBer false s.berHistory }
  else { s with graceCounter := s.graceCounter - 1 }

/-- Ingestion of one successfully parsed group frame (JSON record or all-hex
tuple): decode, count the packet, advance BER as success. -/
def ingestGroup (flags : Flags) (now g1 g2 g3 g4 : Nat) (s : DecoderState) : DecoderState :=
  let s1 := decodeRdsGroup flags now g1 g2 g3 g4 s
  berAdvanceSuccess { s1 with packetCount := s1.packetCount + 1 }

/-- Ingestion of a dash-marked (corrupted) tuple: always penalize BER, update
the analyzer when active, mark dirty.  No decoder fields change. -/
def ingestCorrupt (flags : Flags) (s : DecoderState) : DecoderState :=
  let s1 := { s with packetCount := s.packetCount + 1,
                     berHistory := updateBer true s.berHistory }
  let s2 :=
    if flags.analyzerActive then
      { s1 with groupTotal := s1.groupTotal + 1,
                groupSequence := pushSequence s1.groupSequence GroupKey.corrupt,
                groupCounts := bumpCount s1.groupCounts GroupKey.corrupt }
    else s1
  { s2 with isDirty := true }

/-- Buffer watchdog on an unparsed prefix beyond 500 bytes: one BER failure
after grace, always mark dirty. -/
def ingestOverflow (s : DecoderState) : DecoderState :=
  if s.graceCounter = 0 then
    { s with berHistory := updateBer true s.berHistory, isDirty := true }
  else { s with isDirty := true }

/-- One frame-ingester outcome. -/
inductive IngestEvent
  | group (g : GroupBlocks)
  | corrupt
  | overflow
deriving DecidableEq, Repr

/-- Apply one ingester outcome. -/
def ingestStep (flags : Flags) (now : Nat) (s : DecoderState) : IngestEvent → DecoderState
  | IngestEvent.group g => ingestGroup flags now g.g1 g.g2 g.g3 g.g4 s
  | IngestEvent.corrupt => ingestCorrupt flags s
  | IngestEvent.overflow => ingestOverflow s

/-- Apply a sequence of ingester outcomes in order. -/
def runIngest (flags : Flags) (now : Nat) (evs : List IngestEvent) (s : DecoderState) : DecoderState :=
  evs.foldl (ingestStep flags now) s

/-! ## Snapshot publisher (the requestAnimationFrame UI update loop) -/

/-- Index of the RT terminator `\r` in the active buffer (`indexOf('\r')`). -/
def findCRIdx : List Char → Option Nat
  | [] => none
  | c :: rest => if c = Char.ofNat 13 then some 0 else (findCRIdx rest).map (· + 1)

/-- Ascending insertion by content type. -/
def insertCt (x : RtPlusTag) : List RtPlusTag → List RtPlusTag
  | [] => [x]
  | y :: ys => if y.contentType < x.contentType then y :: insertCt x ys else x :: y :: ys

/-- Sort RT+ tags ascending by content type for the snapshot. -/
def sortCt : List RtPlusTag → List RtPlusTag
  | [] => []
  | x :: xs => insertCt x (sortCt xs)

/-- Window mean scaled to percent
(`length > 0 ? (sum/length)*100 : 0`). -/
def berPercent (w : List Nat) : ℚ :=
  if w.length = 0 then 0 else ((w.sum : ℚ) / (w.length : ℚ)) * 100

/-- Published snapshot shape (the object passed to `setRdsData`). -/
structure RdsSnapshot where
  pi : Option Nat
  pty : Nat
  ptyn : String
  tp : Bool
  ta : Bool
  ms : Bool
  stereo : Bool
  artificialHead : Bool
  compressed : Bool
  dynamicPty : Bool
  ecc : String
  lic : String
  pin : String
  localTime : String
  utcTime : String
  textAbFlag : Bool
  rtPlus : List RtPlusTag
  rtPlusItemRunning : Bool
  rtPlusItemToggle : Bool
  hasRtPlus : Bool
  hasEon : Bool
  hasTmc : Bool
  eonData : List (Nat × EonNetwork)
  tmcServiceInfo : TmcServiceInfo
  tmcMessages : List TmcMessage
  ps : String
  longPs : String
  rtA : String
  rtB : String
  af : List Nat
  afListHead : Option Nat
  afBLists : List (Nat × List Nat)
  afType : AfType
  ber : ℚ
  groupCounts : List (GroupKey × Nat)
  groupTotal : Nat
  groupSequence : List GroupKey
  recentGroups : List RawGroup
  psHistory : List PsHistoryItem
  rtHistory : List RtHistoryItem
deriving DecidableEq, Repr

/-- One animation-frame tick of the UI update loop (App.tsx): when dirty or
with pending raw groups, run the PS/RT history logic (stability gating,
200-entry caps), compose the snapshot, clear the raw buffer and the dirty
flag; otherwise nothing happens and observers keep the previous snapshot.
Comparisons `now - t >= d` on JS numbers are rendered as `t + d ≤ now`,
which also matches the negative-difference case. -/
def publishTick (flags : Flags) (now : Nat) (prev : RdsSnapshot) (s : DecoderState) :
    DecoderState × RdsSnapshot :=
  if s.isDirty = true ∨ s.rawGroupBuffer ≠ [] then
    let currentPs := String.mk s.psBuffer
    let psCand := if currentPs ≠ s.psCandidateString then currentPs else s.psCandidateString
    let psSince := if currentPs ≠ s.psCandidateString then now else s.psStableSince
    let isStable := psSince + 1000 ≤ now
    let psAppend : Bool :=
      decide (0 < s.piEstablishmentTime) &&
      decide (s.piEstablishmentTime + 3000 < now) &&
      decide (s.currentPi ≠ none) &&
      decide isStable &&
      decide (0 < currentPs.trim.length) &&
      (match s.psHistoryBuffer.head? with
       | some e => e.ps != currentPs
       | none => true)
    let psHist :=
      if psAppend then
        let h := ({ time := now, pi := s.currentPi, ps := currentPs, pty := s.pty } : PsHistoryItem)
          :: s.psHistoryBuffer
        if 200 < h.length then h.dropLast else h
      else s.psHistoryBuffer
    let logged := if psAppend then true else s.psHistoryLogged
    let curBuf := if s.abFlag then s.rtBuffer1 else s.rtBuffer0
    let curMask := if s.abFlag then s.rtMask1 else s.rtMask0
    let isComplete : Bool :=
      match findCRIdx curBuf with
      | some ti => (curMask.take ti).all (fun b => b)
      | none => curMask.all (fun b => b)
    let rawRt : String :=
      match findCRIdx curBuf with
      | some ti => String.mk (curBuf.take ti)
      | none => String.mk curBuf
    let rtCand := if isComplete = true ∧ rawRt ≠ s.rtCandidateString then rawRt else s.rtCandidateString
    let rtSince := if isComplete = true ∧ rawRt ≠ s.rtCandidateString then now else s.rtStableSince
    let rtAppend : Bool :=
      isComplete &&
      decide (rtSince + 2000 ≤ now) &&
      (match s.rtHistoryBuffer.head? with
       | some e => e.text != rawRt
       | none => true) &&
      decide (0 < rawRt.trim.length)
    let rtHist :=
      if rtAppend then
        let h := ({ time := now, text := rawRt } : RtHistoryItem) :: s.rtHistoryBuffer
        if 200 < h.length then h.dropLast else h
      else s.rtHistoryBuffer
    let snap : RdsSnapshot :=
      { pi := s.currentPi, pty := s.pty, ptyn := String.mk s.ptynBuffer,
        tp := s.tp, ta := s.ta, ms := s.ms, stereo := s.diStereo,
        artificialHead := s.diArtificialHead, compressed := s.diCompressed,
        dynamicPty := s.diDynamicPty, ecc := s.ecc, lic := s.lic, pin := s.pin,
        localTime := s.localTime, utcTime := s.utcTime, textAbFlag := s.abFlag,
        rtPlus := sortCt (s.rtPlusTags.map Prod.snd),
        rtPlusItemRunning := s.rtPlusItemRunning, rtPlusItemToggle := s.rtPlusItemToggle,
        hasRtPlus := s.hasRtPlus, hasEon := s.hasEon, hasTmc := s.hasTmc,
        eonData := s.eonMap, tmcServiceInfo := s.tmcServiceInfo,
        tmcMessages := s.tmcBuffer, ps := currentPs, longPs := String.mk s.lpsBuffer,
        rtA := String.mk s.rtBuffer0, rtB := String.mk s.rtBuffer1,
        af := s.afSet, afListHead := s.afListHead,
        afBLists := s.afBMap.map (fun p => (p.1, p.2.afs)), afType := s.afType,
        ber := if 0 < s.graceCounter then 0 else berPercent s.berHistory,
        groupCounts := if flags.analyzerActive then s.groupCounts else prev.groupCounts,
        groupTotal := if flags.analyzerActive then s.groupTotal else prev.groupTotal,
        groupSequence := if flags.analyzerActive then s.groupSequence else prev.groupSequence,
        recentGroups := s.rawGroupBuffer, psHistory := psHist, rtHistory := rtHist }
    ({ s with psCandidateString := psCand, psStableSince := psSince,
              psHistoryBuffer := psHist, psHistoryLogged := logged,
              rtCandidateString := rtCand, rtStableSince := rtSince,
              rtHistoryBuffer := rtHist, rawGroupBuffer := [], isDirty := false },
     snap)
  else (s, prev)

/-- Neutral previous-snapshot value used when instantiating the publisher on
concrete runs; every field relevant to the statements below is overwritten
by `publishTick` on a dirty state. -/
def blankSnapshot : RdsSnapshot where
  pi := none
  pty := 0
  ptyn := ""
  tp := false
  ta := false
  ms := false
  stereo := false
  artificialHead := false
  compressed := false
  dynamicPty := false
  ecc := ""
  lic := ""
  pin := ""
  localTime := ""
  utcTime := ""
  textAbFlag := false
  rtPlus := []
  rtPlusItemRunning := false
  rtPlusItemToggle := false
  hasRtPlus := false
  hasEon := false
  hasTmc := false
  eonData := []
  tmcServiceInfo := initialTmcServiceInfo
  tmcMessages := []
  ps := ""
  longPs := ""
  rtA := ""
  rtB := ""
  af := []
  afListHead := none
  afBLists := []
  afType := AfType.unknown
  ber := 0
  groupCounts := []
  groupTotal := 0
  groupSequence := []
  recentGroups := []
  psHistory := []
  rtHistory := []

/-! ## TMC location resolver (src/src/services/tmcLocationService.ts)

The resolver's module-level mutable state (`locationCache`,
`pendingResolutions`, `availabilityCache`) is threaded explicitly; the three
containers are modelled as functions because only `get`/`set`/`has`/`add`/
`delete` are used.  Network effects (`queryOverpass` calls) are modelled by
an environment of response functions together with a request counter:
each `queryOverpass` invocation increments the counter, and a thrown error
is an `Except.error`.  `rateLimitWait` only suspends and is timing-irrelevant
here; departure timing is modelled separately below. -/

namespace Resolver

/-- Resolution status (`'resolved' | 'not_found'`). -/
inductive LocStatus
  | resolved
  | notFound
deriving DecidableEq, Repr

/-- Resolved TMC location (types.ts `TmcResolvedLocation`). -/
structure TmcResolvedLocation where
  locationCode : Nat
  lat : ℚ
  lon : ℚ
  name : Option String
  roadRef : Option String
  status : LocStatus
deriving DecidableEq, Repr

/-- Availability-check outcome ('node' | 'relation' | 'none'). -/
inductive AvailFormat
  | node
  | relation
  | noneAvail
deriving DecidableEq, Repr

/-- Deterministic network environment: count probes and batch queries per
format.  `Except.error` models a thrown/failed `queryOverpass`. -/
structure OverpassEnv where
  nodeCount : Nat → Nat → Except Unit Nat
  relCount : Nat → Nat → Except Unit Nat
  nodeBatch : List Nat → Nat → Nat → Except Unit (List (Nat × TmcResolvedLocation))
  relBatch : List Nat → Nat → Nat → Except Unit (List (Nat × TmcResolvedLocation))

/-- Module-level resolver state plus the count of network requests issued. -/
structure ResolverState where
  locationCache : Nat × Nat × Nat → Option TmcResolvedLocation
  pendingResolutions : Nat × Nat × Nat → Bool
  availabilityCache : Nat × Nat → Option AvailFormat
  requestCount : Nat

/-- Pointwise map/set update. -/
def updF {κ α : Type} [DecidableEq κ] (f : κ → α) (k : κ) (v : α) : κ → α :=
  fun k2 => if k2 = k then v else f k2

/-- State at module load: empty caches, no pending entries, no requests. -/
def initialResolverState : ResolverState where
  locationCache := fun _ => none
  pendingResolutions := fun _ => false
  availabilityCache := fun _ => none
  requestCount := 0

/-- Negative cache entry (zero coordinates, `not_found`). -/
def notFoundLoc (lcd : Nat) : TmcResolvedLocation :=
  { locationCode := lcd, lat := 0, lon := 0, name := none, roadRef := none,
    status := LocStatus.notFound }

/-- `checkAvailability` (tmcLocationService.ts): answer from the per-country
cache, else probe node-level tags and then relations, caching the outcome;
a failed probe falls through exactly like a zero count. -/
def checkAvailability (env : OverpassEnv) (cid tabcd : Nat) (s : ResolverState) :
    AvailFormat × ResolverState :=
  match s.availabilityCache (cid, tabcd) with
  | some f => (f, s)
  | none =>
      let s1 := { s with requestCount := s.requestCount + 1 }
      let nodeHit : Bool :=
        match env.nodeCount cid tabcd with
        | Except.ok n => decide (0 < n)
        | Except.error _ => false
      if nodeHit then
        (AvailFormat.node,
         { s1 with availabilityCache := updF s1.availabilityCache (cid, tabcd) (some AvailFormat.node) })
      else
        let s2 := { s1 with requestCount := s1.requestCount + 1 }
        let relHit : Bool :=
          match env.relCount cid tabcd with
          | Except.ok n => decide (0 < n)
          | Except.error _ => false
        if relHit then
          (AvailFormat.relation,
           { s2 with availabilityCache := updF s2.availabilityCache (cid, tabcd) (some AvailFormat.relation) })
        else
          (AvailFormat.noneAvail,
           { s2 with availabilityCache := updF s2.availabilityCache (cid, tabcd) (some AvailFormat.noneAvail) })

/-- Response of the format-dispatched batch query (`queryNodeBatch` /
`queryRelationBatch`). -/
def batchResp (env : OverpassEnv) (lcds : List Nat) (cid tabcd : Nat)
    (fmt : AvailFormat) : Except Unit (List (Nat × TmcResolvedLocation)) :=
  match fmt with
  | AvailFormat.node => env.nodeBatch lcds cid tabcd
  | AvailFormat.relation => env.relBatch lcds cid tabcd
  | AvailFormat.noneAvail => Except.ok []

/-- `queryBatch` (tmcLocationService.ts): one rate-limited network request
using the detected format.  Only ever called with `node` or `relation`. -/
def queryBatch (env : OverpassEnv) (lcds : List Nat) (cid tabcd : Nat)
    (fmt : AvailFormat) (s : ResolverState) :
    Except Unit (List (Nat × TmcResolvedLocation)) × ResolverState :=
  (batchResp env lcds cid tabcd fmt,
   { s with requestCount := s.requestCount + 1 })

/-- Cache-check pass at the top of `resolveLocations`: cached entries go into
the result map, uncached and not-pending codes are collected as unresolved. -/
def cacheScanGo (s : ResolverState) (cid tabcd : Nat) :
    List Nat → List (Nat × TmcResolvedLocation) → List Nat →
    List (Nat × TmcResolvedLocation) × List Nat
  | [], r, u => (r, u)
  | lcd :: rest, r, u =>
      match s.locationCache (cid, tabcd, lcd) with
      | some c => cacheScanGo s cid tabcd rest (aset r lcd c) u
      | none =>
          if s.pendingResolutions (cid, tabcd, lcd) then cacheScanGo s cid tabcd rest r u
          else cacheScanGo s cid tabcd rest r (u ++ [lcd])

/-- Split the unresolved codes into batches of `BATCH_SIZE = 50`. -/
def chunk50 : List Nat → List (List Nat)
  | [] => []
  | x :: rest => ((x :: rest).take 50) :: chunk50 ((x :: rest).drop 50)
termination_by l => l.length
decreasing_by simp; omega

/-- `batch.forEach(lcd => pendingResolutions.add(...))` before the query. -/
def pendBatch (cid tabcd : Nat) (batch : List Nat) (s : ResolverState) : ResolverState :=
  batch.foldl
    (fun s lcd =>
      { s with pendingResolutions := updF s.pendingResolutions (cid, tabcd, lcd) true }) s

/-- `resolved.forEach(...)`: enter each resolved entry in the result map and
the cache and clear its pending mark. -/
def applyResolved (cid tabcd : Nat) (resolved : List (Nat × TmcResolvedLocation))
    (results : List (Nat × TmcResolvedLocation)) (s : ResolverState) :
    List (Nat × TmcResolvedLocation) × ResolverState :=
  resolved.foldl
    (fun (acc : List (Nat × TmcResolvedLocation) × ResolverState) p =>
      (aset acc.1 p.1 p.2,
       { acc.2 with
         locationCache := updF acc.2.locationCache (cid, tabcd, p.1) (some p.2),
         pendingResolutions := updF acc.2.pendingResolutions (cid, tabcd, p.1) false }))
    (results, s)

/-- `batch.forEach(...)`: negatively cache the batch codes that did not come
back resolved and clear their pending marks (without entering them in the
result map). -/
def cacheNotFound (cid tabcd : Nat) (resolved : List (Nat × TmcResolvedLocation))
    (batch : List Nat) (s : ResolverState) : ResolverState :=
  batch.foldl
    (fun s lcd =>
      if (alookup resolved lcd).isSome then s
      else
        { s with
          locationCache := updF s.locationCache (cid, tabcd, lcd) (some (notFoundLoc lcd)),
          pendingResolutions := updF s.pendingResolutions (cid, tabcd, lcd) false }) s

/-- Catch path of the batch loop: clear the batch's pending marks. -/
def clearPending (cid tabcd : Nat) (batch : List Nat) (s : ResolverState) : ResolverState :=
  batch.foldl
    (fun s lcd =>
      { s with pendingResolutions := updF s.pendingResolutions (cid, tabcd, lcd) false }) s

/-- Batch loop of `resolveLocations`: mark the batch pending, query it; on
success cache and report resolved entries and negatively cache the rest of
the batch; on error clear the pending marks and continue with the next
batch (the error is only logged). -/
def processBatches (env : OverpassEnv) (cid tabcd : Nat) (fmt : AvailFormat) :
    List (List Nat) → List (Nat × TmcResolvedLocation) → ResolverState →
    List (Nat × TmcResolvedLocation) × ResolverState
  | [], results, s => (results, s)
  | batch :: rest, results, s =>
      let q := queryBatch env batch cid tabcd fmt (pendBatch cid tabcd batch s)
      match q.1 with
      | Except.ok resolved =>
          let afterRes := applyResolved cid tabcd resolved results q.2
          processBatches env cid tabcd fmt rest afterRes.1
            (cacheNotFound cid tabcd resolved batch afterRes.2)
      | Except.error _ =>
          processBatches env cid tabcd fmt rest results (clearPending cid tabcd batch q.2)

/-- No-data path of `resolveLocations`: negatively cache every miss. -/
def cacheAllNotFound (cid tabcd : Nat) (lcds : List Nat) (s : ResolverState) : ResolverState :=
  lcds.foldl
    (fun s lcd =>
      { s with locationCache := updF s.locationCache (cid, tabcd, lcd) (some (notFoundLoc lcd)) }) s

/-- `resolveLocations` (tmcLocationService.ts): serve from cache, skip
pending codes, detect availability for the misses; when no data exists the
misses are negatively cached (note: without entering the returned map);
otherwise the misses are queried in batches of 50. -/
def resolveLocations (env : OverpassEnv) (locationCodes : List Nat)
    (cid tabcd : Nat) (s : ResolverState) :
    List (Nat × TmcResolvedLocation) × ResolverState :=
  let scan := cacheScanGo s cid tabcd locationCodes [] []
  let results0 := scan.1
  let unresolved := scan.2
  if unresolved = [] then (results0, s)
  else
    let av := checkAvailability env cid tabcd s
    match av.1 with
    | AvailFormat.noneAvail => (results0, cacheAllNotFound cid tabcd unresolved av.2)
    | fmt => processBatches env cid tabcd fmt (chunk50 unresolved) results0 av.2

end Resolver

/-! ## Request departure timing (rateLimitWait / queryOverpass)

Every network request the resolver issues is immediately preceded by
`rateLimitWait()` (both probes of `checkAvailability` and the batch query of
`queryBatch`).  `rateLimitWait` resumes when at least `RATE_LIMIT_MS = 1100`
milliseconds have elapsed since `lastQueryTime`, and `queryOverpass` sets
`lastQueryTime = Date.now()` only after a response with `response.ok`.  The
model below tracks the wall clock and `lastQueryTime` across a sequence of
rate-limited requests, each with a response latency and a success flag. -/

namespace RateLimit

/-- Wall clock and the module-level `lastQueryTime`. -/
structure RateState where
  clock : Nat
  lastQueryTime : Nat
deriving DecidableEq, Repr

/-- One request: its response latency and whether `response.ok` held. -/
structure QuerySpec where
  duration : Nat
  ok : Bool
deriving DecidableEq, Repr

/-- Departure instant of the next request: `rateLimitWait` sleeps until
`lastQueryTime + 1100` when the elapsed time is shorter, then the fetch is
issued. -/
def departTime (s : RateState) : Nat := max s.clock (s.lastQueryTime + 1100)

/-- Execute one rate-limited request: the response arrives after `duration`,
and `lastQueryTime` is updated only on success. -/
def stepQuery (s : RateState) (q : QuerySpec) : RateState :=
  let d := departTime s
  let resp := d + q.duration
  { clock := resp, lastQueryTime := if q.ok then resp else s.lastQueryTime }

/-- Departure instants of a sequence of rate-limited requests. -/
def departures (s : RateState) : List QuerySpec → List Nat
  | [] => []
  | q :: rest => departTime s :: departures (stepQuery s q) rest

end RateLimit

/-! ## Helper lemmas: group handlers never touch the PI-tracking fields -/

theorem handle0_pi (a : Bool) (g2 g3 g4 : Nat) (s : DecoderState) :
    (handle0 a g2 g3 g4 s).currentPi = s.currentPi ∧
    (handle0 a g2 g3 g4 s).piCandidate = s.piCandidate ∧
    (handle0 a g2 g3 g4 s).piCounter = s.piCounter := by
  unfold handle0
  dsimp only
  split <;> exact ⟨rfl, rfl, rfl⟩

theorem handle3A_pi (g2 g3 g4 : Nat) (s : DecoderState) :
    (handle3A g2 g3 g4 s).currentPi = s.currentPi ∧
    (handle3A g2 g3 g4 s).piCandidate = s.piCandidate ∧
    (handle3A g2 g3 g4 s).piCounter = s.piCounter := by
  unfold handle3A
  split <;> exact ⟨rfl, rfl, rfl⟩

theorem handle4A_pi (g2 g3 g4 : Nat) (s : DecoderState) :
    (handle4A g2 g3 g4 s).currentPi = s.currentPi ∧
    (handle4A g2 g3 g4 s).piCandidate = s.piCandidate ∧
    (handle4A g2 g3 g4 s).piCounter = s.piCounter := by
  unfold handle4A
  dsimp only
  split <;> exact ⟨rfl, rfl, rfl⟩

theorem dispatchGroup_pi (flags : Flags) (now g1 g2 g3 g4 : Nat) (s : DecoderState) :
    (dispatchGroup flags now g1 g2 g3 g4 s).currentPi = s.currentPi ∧
    (dispatchGroup flags now g1 g2 g3 g4 s).piCandidate = s.piCandidate ∧
    (dispatchGroup flags now g1 g2 g3 g4 s).piCounter = s.piCounter := by
  unfold dispatchGroup
  dsimp only
  split
  · exact handle0_pi _ _ _ _ _
  split
  · exact ⟨rfl, rfl, rfl⟩
  split
  · exact ⟨rfl, rfl, rfl⟩
  split
  · exact ⟨rfl, rfl, rfl⟩
  split
  · exact ⟨rfl, rfl, rfl⟩
  split
  · exact handle3A_pi _ _ _ _
  split
  · exact ⟨rfl, rfl, rfl⟩
  split
  · exact handle4A_pi _ _ _ _
  split
  · exact ⟨rfl, rfl, rfl⟩
  split
  · exact ⟨rfl, rfl, rfl⟩
  · exact ⟨rfl, rfl, rfl⟩

theorem decodeRdsGroup_pi (flags : Flags) (now g1 g2 g3 g4 : Nat) (s : DecoderState) :
    (decodeRdsGroup flags now g1 g2 g3 g4 s).currentPi = (piPhase g1 now s).currentPi ∧
    (decodeRdsGroup flags now g1 g2 g3 g4 s).piCandidate = (piPhase g1 now s).piCandidate ∧
    (decodeRdsGroup flags now g1 g2 g3 g4 s).piCounter = (piPhase g1 now s).piCounter := by
  unfold decodeRdsGroup handleGroupBody
  exact dispatchGroup_pi flags now g1 g2 g3 g4 _

/-! ## PI-tracking lemmas -/

theorem piTrack_piCandidate (g1 : Nat) (s : DecoderState) :
    (piTrack g1 s).piCandidate = some g1 := by
  unfold piTrack
  split
  · rename_i h; exact h.symm
  · rfl

theorem piTrack_currentPi (g1 : Nat) (s : DecoderState) :
    (piTrack g1 s).currentPi = s.currentPi := by
  unfold piTrack
  split <;> rfl

theorem piTrack_piCounter (g1 : Nat) (s : DecoderState) :
    (piTrack g1 s).piCounter = if some g1 = s.piCandidate then s.piCounter + 1 else 1 := by
  unfold piTrack
  split <;> rfl

theorem piPhase_piCandidate (g1 now : Nat) (s : DecoderState) :
    (piPhase g1 now s).piCandidate = some g1 := by
  unfold piPhase
  dsimp only
  split
  · split
    · exact piTrack_piCandidate g1 s
    · exact piTrack_piCandidate g1 s
  · exact piTrack_piCandidate g1 s

theorem piPhase_piCounter (g1 now : Nat) (s : DecoderState) :
    (piPhase g1 now s).piCounter = if some g1 = s.piCandidate then s.piCounter + 1 else 1 := by
  unfold piPhase
  dsimp only
  rw [← piTrack_piCounter]
  split
  · split
    · rfl
    · rfl
  · rfl

theorem piPhase_currentPi_cases (g1 now : Nat) (s : DecoderState) :
    (piPhase g1 now s).currentPi = s.currentPi ∨
    (s.currentPi = none ∨ 4 ≤ (piPhase g1 now s).piCounter) := by
  unfold piPhase
  dsimp only
  split
  · rename_i hconf
    split
    · rcases hconf with h4 | ⟨hn, _⟩
      · exact Or.inr (Or.inr h4)
      · exact Or.inr (Or.inl ((piTrack_currentPi g1 s) ▸ hn))
    · exact Or.inl (piTrack_currentPi g1 s)
  · exact Or.inl (piTrack_currentPi g1 s)

/-! ## Trailing-run bookkeeping for the C1 stream statement -/

/-- Length of the maximal all-`p` suffix of `l`. -/
def countTrailEq (p : Nat) (l : List Nat) : Nat :=
  (l.reverse.takeWhile (fun x => x == p)).length

theorem countTrailEq_concat (p x : Nat) (l : List Nat) :
    countTrailEq p (l ++ [x]) = if x = p then countTrailEq p l + 1 else 0 := by
  unfold countTrailEq
  rw [List.reverse_append]
  by_cases h : x = p <;> simp [List.takeWhile_cons, h]

theorem runGroups_append (flags : Flags) (now : Nat) (l1 l2 : List GroupBlocks)
    (s : DecoderState) :
    runGroups flags now (l1 ++ l2) s = runGroups flags now l2 (runGroups flags now l1 s) := by
  simp [runGroups, List.foldl_append]

/-- Along any stream from the initial state, the tracked candidate is the
PI of the last group and the counter is the length of the maximal suffix of
groups carrying that PI. -/
theorem runGroups_pi_invariant (flags : Flags) (now : Nat) :
    ∀ (gs : List GroupBlocks) (g : GroupBlocks),
      (runGroups flags now (gs ++ [g]) initialState).piCandidate = some g.g1 ∧
      (runGroups flags now (gs ++ [g]) initialState).piCounter
        = countTrailEq g.g1 ((gs ++ [g]).map GroupBlocks.g1) := by
  intro gs
  induction gs using List.reverseRecOn with
  | nil =>
      intro g
      constructor
      · rw [show runGroups flags now ([] ++ [g]) initialState
              = decodeRdsGroup flags now g.g1 g.g2 g.g3 g.g4 initialState from rfl]
        rw [(decodeRdsGroup_pi flags now g.g1 g.g2 g.g3 g.g4 initialState).2.1]
        exact piPhase_piCandidate _ _ _
      · rw [show runGroups flags now ([] ++ [g]) initialState
              = decodeRdsGroup flags now g.g1 g.g2 g.g3 g.g4 initialState from rfl]
        rw [(decodeRdsGroup_pi flags now g.g1 g.g2 g.g3 g.g4 initialState).2.2]
        rw [piPhase_piCounter]
        have : (some g.g1 = initialState.piCandidate) = False := by
          simp [initialState]
        rw [if_neg (by simp [initialState])]
        simp [countTrailEq]
  | append_singleton l a ih =>
      intro g
      have hrun : runGroups flags now ((l ++ [a]) ++ [g]) initialState
          = decodeRdsGroup flags now g.g1 g.g2 g.g3 g.g4
              (runGroups flags now (l ++ [a]) initialState) := by
        rw [runGroups_append]
        rfl
      have ihA := ih a
      constructor
      · rw [hrun, (decodeRdsGroup_pi flags now g.g1 g.g2 g.g3 g.g4 _).2.1]
        exact piPhase_piCandidate _ _ _
      · rw [hrun, (decodeRdsGroup_pi flags now g.g1 g.g2 g.g3 g.g4 _).2.2,
            piPhase_piCounter, ihA.1]
        have hmap : ((l ++ [a]) ++ [g]).map GroupBlocks.g1
            = ((l ++ [a]).map GroupBlocks.g1) ++ [g.g1] := by simp
        rw [hmap, countTrailEq_concat, if_pos rfl]
        by_cases hsame : g.g1 = a.g1
        · rw [if_pos (by rw [hsame]), ihA.2, hsame]
        · rw [if_neg (by simpa using hsame)]
          have hmap2 : (l ++ [a]).map GroupBlocks.g1 = (l.map GroupBlocks.g1) ++ [a.g1] := by
            simp
          rw [hmap2, countTrailEq_concat, if_neg (fun h => hsame h.symm)]

/-- When the trailing run reaches at least 4, the last four PIs are equal. -/
theorem countTrailEq_last_four (p : Nat) (l : List Nat) (h : 4 ≤ countTrailEq p l) :
    ∀ x ∈ l.reverse.take 4, x = p := by
  intro x hx
  have hpre := List.takeWhile_prefix (l := l.reverse) (fun y => y == p)
  obtain ⟨t, ht⟩ := hpre
  have htake : l.reverse.take 4 = (l.reverse.takeWhile (fun y => y == p)).take 4 := by
    conv_lhs => rw [← ht]
    exact List.take_append_of_le_length h
  rw [htake] at hx
  have hx2 := List.mem_takeWhile_imp (List.mem_of_mem_take hx)
  simpa using hx2


/-- Host flags all off (analyzer, TMC inactive), as at page load. -/
def offFlags : Flags := { analyzerActive := false, tmcActive := false, tmcPaused := false }

/-- C1: on every group the candidate-PI counter is incremented on a repeat
and restarted at 1 on a new candidate; the confirmed PI changes only when
the counter has reached 4 — so, on a stream from the initial state, only
when the last four groups carried the same PI — except that any single
observation confirms while `currentPi` is still the placeholder. -/
theorem c1_pi_confirmation :
    (∀ (flags : Flags) (now g1 g2 g3 g4 : Nat) (s : DecoderState),
      (some g1 = s.piCandidate →
        (decodeRdsGroup flags now g1 g2 g3 g4 s).piCandidate = s.piCandidate ∧
        (decodeRdsGroup flags now g1 g2 g3 g4 s).piCounter = s.piCounter + 1) ∧
      (some g1 ≠ s.piCandidate →
        (decodeRdsGroup flags now g1 g2 g3 g4 s).piCandidate = some g1 ∧
        (decodeRdsGroup flags now g1 g2 g3 g4 s).piCounter = 1) ∧
      ((decodeRdsGroup flags now g1 g2 g3 g4 s).currentPi ≠ s.currentPi →
        s.currentPi = none ∨ 4 ≤ (decodeRdsGroup flags now g1 g2 g3 g4 s).piCounter)) ∧
    (∀ (flags : Flags) (now : Nat) (gs : List GroupBlocks) (g : GroupBlocks),
      (runGroups flags now (gs ++ [g]) initialState).currentPi
          ≠ (runGroups flags now gs initialState).currentPi →
      (runGroups flags now gs initialState).currentPi = none ∨
        (4 ≤ countTrailEq g.g1 (((gs ++ [g]).map GroupBlocks.g1)) ∧
         ∀ x ∈ (((gs ++ [g]).map GroupBlocks.g1)).reverse.take 4, x = g.g1)) := by
  constructor
  · intro flags now g1 g2 g3 g4 s
    have hpi := decodeRdsGroup_pi flags now g1 g2 g3 g4 s
    refine ⟨?_, ?_, ?_⟩
    · intro h
      constructor
      · rw [hpi.2.1, piPhase_piCandidate, h]
      · rw [hpi.2.2, piPhase_piCounter, if_pos h]
    · intro h
      constructor
      · rw [hpi.2.1, piPhase_piCandidate]
      · rw [hpi.2.2, piPhase_piCounter, if_neg h]
    · intro h
      rw [hpi.1] at h
      rcases piPhase_currentPi_cases g1 now s with heq | hcase
      · exact absurd heq h
      · rcases hcase with hn | h4
        · exact Or.inl hn
        · exact Or.inr (by rw [hpi.2.2]; exact h4)
  · intro flags now gs g hchange
    have hinv := runGroups_pi_invariant flags now gs g
    have hrun : runGroups flags now (gs ++ [g]) initialState
        = decodeRdsGroup flags now g.g1 g.g2 g.g3 g.g4 (runGroups flags now gs initialState) := by
      rw [runGroups_append]; rfl
    set sPrev := runGroups flags now gs initialState with hsPrev
    rw [hrun] at hchange hinv
    have hpi := decodeRdsGroup_pi flags now g.g1 g.g2 g.g3 g.g4 sPrev
    rw [hpi.1] at hchange
    rcases piPhase_currentPi_cases g.g1 now sPrev with heq | hcase
    · exact absurd heq hchange
    · rcases hcase with hn | h4
      · exact Or.inl hn
      · refine Or.inr ⟨?_, ?_⟩
        · rw [← hinv.2, hpi.2.2]; exact h4
        · apply countTrailEq_last_four
          rw [← hinv.2, hpi.2.2]; exact h4

/-- Witness: from the initial (placeholder) PI state, a single group changes
the confirmed PI, and the theorem's conclusion holds at that input. -/
theorem c1_pi_confirmation_witness :
    (runGroups offFlags 0 [] initialState).currentPi = none ∨
      (4 ≤ countTrailEq 1 ((([] ++ [({ g1 := 1, g2 := 0, g3 := 0, g4 := 0 } : GroupBlocks)]).map GroupBlocks.g1)) ∧
       ∀ x ∈ ((([] ++ [({ g1 := 1, g2 := 0, g3 := 0, g4 := 0 } : GroupBlocks)]).map GroupBlocks.g1)).reverse.take 4, x = 1) :=
  c1_pi_confirmation.2 offFlags 0 [] { g1 := 1, g2 := 0, g3 := 0, g4 := 0 } (by decide)


theorem piTrack_oda (g1 : Nat) (s : DecoderState) :
    (piTrack g1 s).rtPlusOdaGroup = s.rtPlusOdaGroup := by
  unfold piTrack
  split <;> rfl

theorem piPhase_oda (g1 now : Nat) (s : DecoderState) :
    (piPhase g1 now s).rtPlusOdaGroup = s.rtPlusOdaGroup ∨
    (piPhase g1 now s).rtPlusOdaGroup = none := by
  unfold piPhase
  dsimp only
  split
  · split
    · exact Or.inr rfl
    · exact Or.inl (piTrack_oda g1 s)
  · exact Or.inl (piTrack_oda g1 s)

theorem odaCarries_29_false (o : Option Nat) (h : o ≠ some 29) :
    odaCarries o 29 = false := by
  unfold odaCarries
  cases o with
  | none => rfl
  | some v =>
      have hv : v ≠ 29 := fun hv => h (by rw [hv])
      simp [Ne.symm hv]

/-- C10: a version-B group of type 14 (group-type value 29) is handled by no
branch of the dispatch chain (provided no ODA binding designated 29 as the
RT+ carrier), so beyond PI tracking it only runs the shared bookkeeping:
raw-group push, analyzer counters, `tp`/`pty`.  In particular the EON map,
the `hasEon` flag and every other group-specific field are exactly those
left by the PI phase. -/
theorem c10_14b_no_effect (flags : Flags) (now g1 g2 g3 g4 : Nat) (s : DecoderState)
    (htype : (g2 >>> 11) &&& 31 = 29) (hoda : s.rtPlusOdaGroup ≠ some 29) :
    decodeRdsGroup flags now g1 g2 g3 g4 s
      = commonPhase flags now g1 g2 g3 g4 (piPhase g1 now s) ∧
    (decodeRdsGroup flags now g1 g2 g3 g4 s).eonMap = (piPhase g1 now s).eonMap ∧
    (decodeRdsGroup flags now g1 g2 g3 g4 s).hasEon = (piPhase g1 now s).hasEon ∧
    (decodeRdsGroup flags now g1 g2 g3 g4 s).psBuffer = (piPhase g1 now s).psBuffer ∧
    (decodeRdsGroup flags now g1 g2 g3 g4 s).tmcBuffer = (piPhase g1 now s).tmcBuffer ∧
    (decodeRdsGroup flags now g1 g2 g3 g4 s).rtPlusTags = (piPhase g1 now s).rtPlusTags := by
  have ho2 : (commonPhase flags now g1 g2 g3 g4 (piPhase g1 now s)).rtPlusOdaGroup ≠ some 29 := by
    show (piPhase g1 now s).rtPlusOdaGroup ≠ some 29
    rcases piPhase_oda g1 now s with h | h <;> rw [h]
    · exact hoda
    · simp
  have hmain : decodeRdsGroup flags now g1 g2 g3 g4 s
      = commonPhase flags now g1 g2 g3 g4 (piPhase g1 now s) := by
    unfold decodeRdsGroup handleGroupBody dispatchGroup
    dsimp only
    rw [htype, odaCarries_29_false _ ho2]
    norm_num
  refine ⟨hmain, ?_, ?_, ?_, ?_, ?_⟩ <;> rw [hmain] <;> rfl

/-- Witness for C10 at a concrete 14B group from the initial state. -/
theorem c10_14b_no_effect_witness :
    ((59392 : Nat) >>> 11) &&& 31 = 29 ∧
    decodeRdsGroup offFlags 0 4660 59392 7 9 initialState
      = commonPhase offFlags 0 4660 59392 7 9 (piPhase 4660 0 initialState) :=
  ⟨by decide, (c10_14b_no_effect offFlags 0 4660 59392 7 9 initialState (by decide)
      (by decide)).1⟩


/-- The 4A group used for the clock scenario: PI 0x1234 and blocks encoding
`mjd = 59500`, `hour = 14`, `minute = 30`, offset sign 0, 4 half-hours. -/
theorem c4_clock_encoding :
    ((16385 &&& 3) <<< 15) ||| ((53464 &&& 0xFFFE) >>> 1) = 59500 ∧
    ((((53464 &&& 1) <<< 15) ||| (59268 >>> 1)) >>> 11) &&& 31 = 14 ∧
    ((((53464 &&& 1) <<< 15) ||| (59268 >>> 1)) >>> 5) &&& 63 = 30 ∧
    (59268 >>> 4) &&& 1 = 0 ∧ 59268 &&& 15 = 4 ∧
    (16385 >>> 11) &&& 31 = 8 := by
  decide

/-- C4 counterexample: processing the 4A group encoding mjd 59500, 14:30,
offset +4 half-hours does not produce the claimed UTC string
`03/10/2021 14:30`. -/
theorem c4_clock_counterexample :
    (decodeRdsGroup offFlags 0 4660 16385 53464 59268 initialState).utcTime
      ≠ "03/10/2021 14:30" := by
  decide

/-- C4 amended: MJD 59500 is 13 October 2021 (also by the spec's own floor
formula), so the published strings are `13/10/2021 14:30` (UTC) and
`13/10/2021 16:30` (local, +4 half-hours). -/
theorem c4_clock_decode :
    (decodeRdsGroup offFlags 0 4660 16385 53464 59268 initialState).utcTime
      = "13/10/2021 14:30" ∧
    (decodeRdsGroup offFlags 0 4660 16385 53464 59268 initialState).localTime
      = "13/10/2021 16:30" ∧
    convertMjd 59500 = some (13, 10, 2021) :=
  ⟨rfl, rfl, rfl⟩


/-- Mask holding exactly the positions written by one RT group at `address`
(4 characters for 2A, 2 for 2B), everything else false. -/
def rtWriteMask (isGroup2A : Bool) (address : Nat) : List Bool :=
  if isGroup2A then
    let idx := address * 4
    ((((List.replicate 64 false).set idx true).set (idx + 1) true).set (idx + 2) true).set
      (idx + 3) true
  else
    let idx := address * 2
    ((List.replicate 64 false).set idx true).set (idx + 1) true

/-- Content of the freshly cleared RT buffer after one group's write: 64
spaces except the decoded characters at the group's address (4 characters
for 2A, 2 for 2B). -/
def rtWriteBuffer (isGroup2A : Bool) (g2 g3 g4 : Nat) : List Char :=
  if isGroup2A then
    let idx := (g2 &&& 15) * 4
    ((((List.replicate 64 ' ').set idx (decodeRdsByte ((g3 >>> 8) &&& 255))).set (idx + 1)
        (decodeRdsByte (g3 &&& 255))).set (idx + 2)
        (decodeRdsByte ((g4 >>> 8) &&& 255))).set (idx + 3) (decodeRdsByte (g4 &&& 255))
  else
    let idx := (g2 &&& 15) * 2
    ((List.replicate 64 ' ').set idx (decodeRdsByte ((g4 >>> 8) &&& 255))).set (idx + 1)
      (decodeRdsByte (g4 &&& 255))

theorem handleRt_flip (isA : Bool) (g2 g3 g4 : Nat) (s : DecoderState)
    (hflip : s.abFlag ≠ bitOf g2 4) :
    (handleRt isA g2 g3 g4 s).abFlag = bitOf g2 4 ∧
    (handleRt isA g2 g3 g4 s).rtPlusTags
      = s.rtPlusTags.map (fun p => (p.1, { p.2 with isCached := true })) ∧
    ((bitOf g2 4 = true →
        (handleRt isA g2 g3 g4 s).rtBuffer0 = s.rtBuffer0 ∧
        (handleRt isA g2 g3 g4 s).rtMask0 = s.rtMask0 ∧
        (handleRt isA g2 g3 g4 s).rtMask1 = rtWriteMask isA (g2 &&& 15) ∧
        (handleRt isA g2 g3 g4 s).rtBuffer1 = rtWriteBuffer isA g2 g3 g4) ∧
     (bitOf g2 4 = false →
        (handleRt isA g2 g3 g4 s).rtBuffer1 = s.rtBuffer1 ∧
        (handleRt isA g2 g3 g4 s).rtMask1 = s.rtMask1 ∧
        (handleRt isA g2 g3 g4 s).rtMask0 = rtWriteMask isA (g2 &&& 15) ∧
        (handleRt isA g2 g3 g4 s).rtBuffer0 = rtWriteBuffer isA g2 g3 g4)) := by
  have hle : g2 &&& 15 ≤ 15 := Nat.and_le_right
  have hidx4 : (g2 &&& 15) * 4 < 64 := by omega
  have hidx2 : (g2 &&& 15) * 2 < 32 := by omega
  unfold handleRt
  dsimp only
  cases hb : bitOf g2 4 <;> cases hsab : s.abFlag <;> rw [hb, hsab] at hflip <;>
    first
    | exact absurd rfl hflip
    | (cases isA <;> simp [hb, hsab, rtWriteMask, rtWriteBuffer, hidx4, hidx2])


theorem decode_rt_eq (flags : Flags) (now g1 g2 g3 g4 : Nat) (s : DecoderState)
    (htv : (g2 >>> 11) &&& 31 = 4 ∨ (g2 >>> 11) &&& 31 = 5) :
    decodeRdsGroup flags now g1 g2 g3 g4 s
      = handleRt (((g2 >>> 11) &&& 31) == 4) g2 g3 g4
          (commonPhase flags now g1 g2 g3 g4 (piPhase g1 now s)) := by
  unfold decodeRdsGroup handleGroupBody dispatchGroup
  dsimp only
  rcases htv with h | h <;> rw [h] <;> norm_num

/-- C6 (amended): on a 2A/2B group whose A/B toggle bit differs from the
stored flag, the decoder adopts the new flag, marks every stored RT+ tag
stale, leaves the previously-active buffer and its mask untouched, and the
newly-active buffer and mask are cleared before the group's own write: the
mask ends up false everywhere except the positions written by this very
group, and the buffer all-spaces except this group's decoded characters.
For the S2 flip to `ab_flag = 1` the cleared side is buffer/mask 1, not
`rt_mask[0]`. -/
theorem c6_rt_ab_flip (flags : Flags) (now g1 g2 g3 g4 : Nat) (s : DecoderState)
    (htv : (g2 >>> 11) &&& 31 = 4 ∨ (g2 >>> 11) &&& 31 = 5)
    (hflip : (piPhase g1 now s).abFlag ≠ bitOf g2 4) :
    (decodeRdsGroup flags now g1 g2 g3 g4 s).abFlag = bitOf g2 4 ∧
    (decodeRdsGroup flags now g1 g2 g3 g4 s).rtPlusTags
      = (piPhase g1 now s).rtPlusTags.map (fun p => (p.1, { p.2 with isCached := true })) ∧
    (∀ p ∈ (decodeRdsGroup flags now g1 g2 g3 g4 s).rtPlusTags, p.2.isCached = true) ∧
    (bitOf g2 4 = true →
      (decodeRdsGroup flags now g1 g2 g3 g4 s).rtBuffer0 = (piPhase g1 now s).rtBuffer0 ∧
      (decodeRdsGroup flags now g1 g2 g3 g4 s).rtMask0 = (piPhase g1 now s).rtMask0 ∧
      (decodeRdsGroup flags now g1 g2 g3 g4 s).rtMask1
        = rtWriteMask (((g2 >>> 11) &&& 31) == 4) (g2 &&& 15) ∧
      (decodeRdsGroup flags now g1 g2 g3 g4 s).rtBuffer1
        = rtWriteBuffer (((g2 >>> 11) &&& 31) == 4) g2 g3 g4) ∧
    (bitOf g2 4 = false →
      (decodeRdsGroup flags now g1 g2 g3 g4 s).rtBuffer1 = (piPhase g1 now s).rtBuffer1 ∧
      (decodeRdsGroup flags now g1 g2 g3 g4 s).rtMask1 = (piPhase g1 now s).rtMask1 ∧
      (decodeRdsGroup flags now g1 g2 g3 g4 s).rtMask0
        = rtWriteMask (((g2 >>> 11) &&& 31) == 4) (g2 &&& 15) ∧
      (decodeRdsGroup flags now g1 g2 g3 g4 s).rtBuffer0
        = rtWriteBuffer (((g2 >>> 11) &&& 31) == 4) g2 g3 g4) := by
  have hcp : (commonPhase flags now g1 g2 g3 g4 (piPhase g1 now s)).abFlag
      = (piPhase g1 now s).abFlag := rfl
  have h := handleRt_flip (((g2 >>> 11) &&& 31) == 4) g2 g3 g4
    (commonPhase flags now g1 g2 g3 g4 (piPhase g1 now s)) (by rw [hcp]; exact hflip)
  rw [decode_rt_eq flags now g1 g2 g3 g4 s htv]
  refine ⟨h.1, h.2.1, ?_,
    fun hb =>
      ⟨(h.2.2.1 hb).1, (h.2.2.1 hb).2.1, (h.2.2.1 hb).2.2.1, (h.2.2.1 hb).2.2.2⟩,
    fun hb =>
      ⟨(h.2.2.2 hb).1, (h.2.2.2 hb).2.1, (h.2.2.2 hb).2.2.1, (h.2.2.2 hb).2.2.2⟩⟩
  intro p hp
  rw [h.2.1] at hp
  obtain ⟨q, _, hq⟩ := List.mem_map.mp hp
  rw [← hq]

/-- The S2 prefix: four 2A groups with `ab_flag = 0` writing
`"Now Playing: X  "` at addresses 0..3, all with PI 0x1234. -/
def c6Groups : List GroupBlocks :=
  [ { g1 := 4660, g2 := 8192, g3 := 0x4E6F, g4 := 0x7720 },
    { g1 := 4660, g2 := 8193, g3 := 0x506C, g4 := 0x6179 },
    { g1 := 4660, g2 := 8194, g3 := 0x696E, g4 := 0x673A },
    { g1 := 4660, g2 := 8195, g3 := 0x2058, g4 := 0x2020 } ]

/-- C6 counterexample: after the S2 flip (a 2A group with `ab_flag = 1`),
`rt_mask[0]` is not all-false — it keeps the 16 bits set while writing under
`ab_flag = 0`; the flip clears `rt_mask[1]`. -/
theorem c6_rt_ab_flip_counterexample :
    (runGroups offFlags 0
        (c6Groups ++ [{ g1 := 4660, g2 := 8208, g3 := 16706, g4 := 17220 }])
        initialState).rtMask0
      ≠ List.replicate 64 false ∧
    (runGroups offFlags 0
        (c6Groups ++ [{ g1 := 4660, g2 := 8208, g3 := 16706, g4 := 17220 }])
        initialState).abFlag = true := by
  constructor
  · decide
  · decide

/-- Witness for C6 at the S2 flip group: the newly-active mask holds only
the four written positions, the newly-active buffer is spaces except the
four decoded characters `ABCD`, and the passive mask is untouched. -/
theorem c6_rt_ab_flip_witness :
    (decodeRdsGroup offFlags 0 4660 8208 16706 17220
        (runGroups offFlags 0 c6Groups initialState)).rtMask1
      = rtWriteMask true 0 ∧
    (decodeRdsGroup offFlags 0 4660 8208 16706 17220
        (runGroups offFlags 0 c6Groups initialState)).rtBuffer1
      = 'A' :: 'B' :: 'C' :: 'D' :: List.replicate 60 ' ' ∧
    (decodeRdsGroup offFlags 0 4660 8208 16706 17220
        (runGroups offFlags 0 c6Groups initialState)).rtMask0
      = (piPhase 4660 0 (runGroups offFlags 0 c6Groups initialState)).rtMask0 := by
  have h := c6_rt_ab_flip offFlags 0 4660 8208 16706 17220
    (runGroups offFlags 0 c6Groups initialState) (by decide) (by decide)
  have h4 := h.2.2.2.1 (by decide)
  exact ⟨by rw [h4.2.2.1]; decide, by rw [h4.2.2.2]; decide, h4.2.1⟩


theorem explicitB_iff (l : List AfBEntry) :
    ((match l with
      | [e] => decide (0 < e.pairCount) && decide (7 * e.pairCount < 20 * e.matchCount)
      | _ => false) = true)
    ↔ ∃ e, l = [e] ∧ 0 < e.pairCount ∧ 7 * e.pairCount < 20 * e.matchCount := by
  match l with
  | [] => simp
  | [e] => simp
  | a :: b :: rest => simp

theorem afTypeSel_iff (l : List AfBEntry) :
    ((if 1 < l.length ∨ ((match l with
        | [e] => decide (0 < e.pairCount) && decide (7 * e.pairCount < 20 * e.matchCount)
        | _ => false) = true) then AfType.B else AfType.A) = AfType.B
      ↔ (1 < l.length ∨
          ∃ e, l = [e] ∧ 0 < e.pairCount ∧ 7 * e.pairCount < 20 * e.matchCount)) := by
  by_cases hC : 1 < l.length ∨ ((match l with
      | [e] => decide (0 < e.pairCount) && decide (7 * e.pairCount < 20 * e.matchCount)
      | _ => false) = true)
  · rw [if_pos hC]
    exact ⟨fun _ => hC.imp id (explicitB_iff l).mp, fun _ => rfl⟩
  · rw [if_neg hC]
    constructor
    · intro h
      exact absurd h (by decide)
    · intro h
      exact absurd (h.imp id (explicitB_iff l).mpr) hC

theorem afUpdate_afType (g3 : Nat) (s : DecoderState) :
    ((afUpdate g3 s).afType = AfType.B ↔
      (1 < (((afUpdate g3 s).afBMap.map Prod.snd).filter afValidCandidate).length ∨
       ∃ e, ((afUpdate g3 s).afBMap.map Prod.snd).filter afValidCandidate = [e] ∧
         0 < e.pairCount ∧ 7 * e.pairCount < 20 * e.matchCount)) := by
  unfold afUpdate
  exact afTypeSel_iff _

theorem decode_0a_eq (flags : Flags) (now g1 g2 g3 g4 : Nat) (s : DecoderState)
    (htv : (g2 >>> 11) &&& 31 = 0) :
    decodeRdsGroup flags now g1 g2 g3 g4 s
      = handle0 true g2 g3 g4 (commonPhase flags now g1 g2 g3 g4 (piPhase g1 now s)) := by
  unfold decodeRdsGroup handleGroupBody dispatchGroup
  dsimp only
  rw [htv]
  norm_num

theorem handle0_afType_iff (g2 g3 g4 : Nat) (s : DecoderState)
    (hlast : s.lastGroup0A3 ≠ some g3) :
    ((handle0 true g2 g3 g4 s).afType = AfType.B ↔
      (1 < (((handle0 true g2 g3 g4 s).afBMap.map Prod.snd).filter afValidCandidate).length ∨
       ∃ e, ((handle0 true g2 g3 g4 s).afBMap.map Prod.snd).filter afValidCandidate = [e] ∧
         0 < e.pairCount ∧ 7 * e.pairCount < 20 * e.matchCount)) := by
  unfold handle0
  dsimp only
  rw [if_pos (And.intro rfl hlast)]
  exact afUpdate_afType g3 _

/-- The S4 group sequence: a 0A header `af1 = 227` (count 3), `af2 = 88`
(96.3 MHz), then the pairs (96.3, 98.1), (96.3, 101.7), (96.3, 104.5),
with PI 0x1234 throughout (B3 values 227*256+88, 88*256+106, 88*256+142,
88*256+170). -/
def c3Groups : List GroupBlocks :=
  [ { g1 := 4660, g2 := 0, g3 := 58200, g4 := 0 },
    { g1 := 4660, g2 := 0, g3 := 22634, g4 := 0 },
    { g1 := 4660, g2 := 0, g3 := 22670, g4 := 0 },
    { g1 := 4660, g2 := 0, g3 := 22698, g4 := 0 } ]

/-- C3: after the S4 feed, the Method-B entry for 96.3 MHz has expected
count 3, the AF set {96.3, 98.1, 101.7, 104.5}, 3 pairs and 3 matches, and
the AF type is Method B; and in general, after every AF update of a 0A
group, the type is B exactly when more than one plausibly-full `af_b_map`
entry exists, or exactly one does and its `match/pair` ratio exceeds 0.35
(with a positive pair count). -/
theorem c3_af_method_b :
    (alookup (runGroups offFlags 0 c3Groups initialState).afBMap 963
        = some { expected := 3, afs := [963, 981, 1017, 1045], matchCount := 3, pairCount := 3 } ∧
     (runGroups offFlags 0 c3Groups initialState).afType = AfType.B) ∧
    (∀ (flags : Flags) (now g1 g2 g3 g4 : Nat) (s : DecoderState),
      (g2 >>> 11) &&& 31 = 0 →
      (piPhase g1 now s).lastGroup0A3 ≠ some g3 →
      ((decodeRdsGroup flags now g1 g2 g3 g4 s).afType = AfType.B ↔
        (1 < (((decodeRdsGroup flags now g1 g2 g3 g4 s).afBMap.map Prod.snd).filter
                afValidCandidate).length ∨
         ∃ e, ((decodeRdsGroup flags now g1 g2 g3 g4 s).afBMap.map Prod.snd).filter
                afValidCandidate = [e] ∧
           0 < e.pairCount ∧ 7 * e.pairCount < 20 * e.matchCount))) := by
  constructor
  · exact ⟨by decide, by decide⟩
  · intro flags now g1 g2 g3 g4 s htv hlast
    rw [decode_0a_eq flags now g1 g2 g3 g4 s htv]
    exact handle0_afType_iff g2 g3 g4 _ hlast

/-- Witness for C3's general component at the last S4 group. -/
theorem c3_af_method_b_witness :
    ((decodeRdsGroup offFlags 0 4660 0 22698 0
        (runGroups offFlags 0 (c3Groups.take 3) initialState)).afType = AfType.B ↔
      (1 < (((decodeRdsGroup offFlags 0 4660 0 22698 0
                (runGroups offFlags 0 (c3Groups.take 3) initialState)).afBMap.map
                Prod.snd).filter afValidCandidate).length ∨
       ∃ e, ((decodeRdsGroup offFlags 0 4660 0 22698 0
                (runGroups offFlags 0 (c3Groups.take 3) initialState)).afBMap.map
                Prod.snd).filter afValidCandidate = [e] ∧
         0 < e.pairCount ∧ 7 * e.pairCount < 20 * e.matchCount)) :=
  c3_af_method_b.2 offFlags 0 4660 0 22698 0
    (runGroups offFlags 0 (c3Groups.take 3) initialState) (by decide) (by decide)


/-- Dedup key of a TMC message. -/
def tmcKey (m : TmcMessage) : Nat × Nat × Bool × Nat :=
  (m.locationCode, m.eventCode, m.direction, m.extent)

theorem tmcMatches_iff (loc ev : Nat) (dir : Bool) (ext : Nat) (m : TmcMessage) :
    tmcMatches loc ev dir ext m = true ↔ tmcKey m = (loc, ev, dir, ext) := by
  simp [tmcMatches, tmcKey, Prod.ext_iff, Bool.and_eq_true, and_assoc]

theorem tmcUpdateExisting_key (now : Nat) (e : ExpiresTime) (m : TmcMessage) :
    tmcKey (tmcUpdateExisting now e m) = tmcKey m := rfl

theorem updateFirstMatch_mem {α : Type} (p : α → Bool) (f : α → α) (l : List α)
    (y : α) (hy : y ∈ updateFirstMatch p f l) :
    y ∈ l ∨ ∃ x ∈ l, y = f x := by
  induction l with
  | nil => simp [updateFirstMatch] at hy
  | cons x xs ih =>
      unfold updateFirstMatch at hy
      split at hy
      · rcases List.mem_cons.mp hy with h | h
        · exact Or.inr ⟨x, List.mem_cons_self x xs, h⟩
        · exact Or.inl (List.mem_cons_of_mem x h)
      · rcases List.mem_cons.mp hy with h | h
        · exact Or.inl (by rw [h]; exact List.mem_cons_self x xs)
        · rcases ih h with h2 | ⟨z, hz, hyz⟩
          · exact Or.inl (List.mem_cons_of_mem x h2)
          · exact Or.inr ⟨z, List.mem_cons_of_mem x hz, hyz⟩

theorem updateFirstMatch_pairwise (p : TmcMessage → Bool) (f : TmcMessage → TmcMessage)
    (hf : ∀ x, tmcKey (f x) = tmcKey x) (l : List TmcMessage)
    (h : List.Pairwise (fun a b => tmcKey a ≠ tmcKey b) l) :
    List.Pairwise (fun a b => tmcKey a ≠ tmcKey b) (updateFirstMatch p f l) := by
  induction l with
  | nil => exact h
  | cons x xs ih =>
      rcases List.pairwise_cons.mp h with ⟨hx, hxs⟩
      unfold updateFirstMatch
      split
      · exact List.pairwise_cons.mpr ⟨fun y hy => by rw [hf x]; exact hx y hy, hxs⟩
      · refine List.pairwise_cons.mpr ⟨?_, ih hxs⟩
        intro y hy
        rcases updateFirstMatch_mem p f xs y hy with h2 | ⟨z, hz, hyz⟩
        · exact hx y h2
        · rw [hyz, hf z]; exact hx z hz

theorem updateFirstMatch_length {α : Type} (p : α → Bool) (f : α → α) (l : List α) :
    (updateFirstMatch p f l).length = l.length := by
  induction l with
  | nil => rfl
  | cons x xs ih => unfold updateFirstMatch; split <;> simp [ih]

theorem updateFirstMatch_eq_map (K : Nat × Nat × Bool × Nat)
    (p : TmcMessage → Bool) (f : TmcMessage → TmcMessage)
    (hp : ∀ m, p m = true ↔ tmcKey m = K) (l : List TmcMessage)
    (h : List.Pairwise (fun a b => tmcKey a ≠ tmcKey b) l) :
    updateFirstMatch p f l = l.map (fun m => if p m then f m else m) := by
  induction l with
  | nil => rfl
  | cons x xs ih =>
      rcases List.pairwise_cons.mp h with ⟨hx, hxs⟩
      unfold updateFirstMatch
      by_cases hpx : p x = true
      · rw [if_pos hpx]
        simp only [List.map_cons, if_pos hpx]
        have hxs_id : ∀ y ∈ xs, (fun m => if p m then f m else m) y = y := by
          intro y hy
          have hpy : ¬p y = true := by
            intro hpy
            exact hx y hy (((hp x).mp hpx).trans ((hp y).mp hpy).symm)
          simp [hpy]
        rw [List.map_congr_left hxs_id]
        simp
      · rw [if_neg hpx]
        simp only [List.map_cons, if_neg hpx]
        rw [ih hxs]

theorem pairwise_prepend_cap (nw : TmcMessage) (l : List TmcMessage)
    (hkey : ∀ y ∈ l, tmcKey y ≠ tmcKey nw)
    (h : List.Pairwise (fun a b => tmcKey a ≠ tmcKey b) l) :
    List.Pairwise (fun a b => tmcKey a ≠ tmcKey b)
      (if 100 < (nw :: l).length then (nw :: l).dropLast else nw :: l) := by
  have hcons : List.Pairwise (fun a b => tmcKey a ≠ tmcKey b) (nw :: l) :=
    List.pairwise_cons.mpr ⟨fun y hy => (hkey y hy).symm, h⟩
  split
  · exact hcons.sublist (List.dropLast_sublist _)
  · exact hcons

theorem piTrack_tmcBuffer (g1 : Nat) (s : DecoderState) :
    (piTrack g1 s).tmcBuffer = s.tmcBuffer := by
  unfold piTrack
  split <;> rfl

theorem piPhase_tmcBuffer (g1 now : Nat) (s : DecoderState) :
    (piPhase g1 now s).tmcBuffer = s.tmcBuffer ∨ (piPhase g1 now s).tmcBuffer = [] := by
  unfold piPhase
  dsimp only
  split
  · split
    · exact Or.inr rfl
    · exact Or.inl (piTrack_tmcBuffer g1 s)
  · exact Or.inl (piTrack_tmcBuffer g1 s)

theorem handle0_tmcBuffer (a : Bool) (g2 g3 g4 : Nat) (s : DecoderState) :
    (handle0 a g2 g3 g4 s).tmcBuffer = s.tmcBuffer := by
  unfold handle0
  dsimp only
  split <;> rfl

theorem handle3A_tmcBuffer (g2 g3 g4 : Nat) (s : DecoderState) :
    (handle3A g2 g3 g4 s).tmcBuffer = s.tmcBuffer := by
  unfold handle3A
  split <;> rfl

theorem handle4A_tmcBuffer (g2 g3 g4 : Nat) (s : DecoderState) :
    (handle4A g2 g3 g4 s).tmcBuffer = s.tmcBuffer := by
  unfold handle4A
  dsimp only
  split <;> rfl

theorem handleTmc_pairwise (flags : Flags) (now g2 g3 g4 : Nat) (s : DecoderState)
    (h : List.Pairwise (fun a b => tmcKey a ≠ tmcKey b) s.tmcBuffer) :
    List.Pairwise (fun a b => tmcKey a ≠ tmcKey b)
      (handleTmc flags now g2 g3 g4 s).tmcBuffer := by
  unfold handleTmc
  dsimp only
  split
  · split
    · split <;> exact h
    · split
      · exact updateFirstMatch_pairwise _ _ (fun x => tmcUpdateExisting_key _ _ x) _ h
      · rename_i hany
        have hcons : List.Pairwise (fun a b => tmcKey a ≠ tmcKey b)
            (mkTmcMessage s.tmcIdCounter now g2 g3 g4 :: s.tmcBuffer) := by
          refine List.pairwise_cons.mpr ⟨?_, h⟩
          intro y hy hk
          exact hany (List.any_eq_true.mpr
            ⟨y, hy, (tmcMatches_iff _ _ _ _ y).mpr hk.symm⟩)
        split
        · exact hcons.sublist (List.dropLast_sublist _)
        · exact hcons
  · exact h

theorem handleTmc_length (flags : Flags) (now g2 g3 g4 : Nat) (s : DecoderState)
    (h : s.tmcBuffer.length ≤ 100) :
    (handleTmc flags now g2 g3 g4 s).tmcBuffer.length ≤ 100 := by
  unfold handleTmc
  dsimp only
  split
  · split
    · split <;> exact h
    · split
      · show (updateFirstMatch _ _ s.tmcBuffer).length ≤ 100
        rw [updateFirstMatch_length]
        exact h
      · split
        · show ((mkTmcMessage s.tmcIdCounter now g2 g3 g4 :: s.tmcBuffer).dropLast).length ≤ 100
          simp
          omega
        · rename_i hlen
          show (mkTmcMessage s.tmcIdCounter now g2 g3 g4 :: s.tmcBuffer).length ≤ 100
          simp at hlen ⊢
          omega
  · exact h


set_option maxHeartbeats 2000000 in
theorem decode_tmc_inv (flags : Flags) (now g1 g2 g3 g4 : Nat) (s : DecoderState)
    (h : List.Pairwise (fun a b => tmcKey a ≠ tmcKey b) s.tmcBuffer ∧
         s.tmcBuffer.length ≤ 100) :
    List.Pairwise (fun a b => tmcKey a ≠ tmcKey b)
      (decodeRdsGroup flags now g1 g2 g3 g4 s).tmcBuffer ∧
    (decodeRdsGroup flags now g1 g2 g3 g4 s).tmcBuffer.length ≤ 100 := by
  have hphase : List.Pairwise (fun a b => tmcKey a ≠ tmcKey b)
      (piPhase g1 now s).tmcBuffer ∧ (piPhase g1 now s).tmcBuffer.length ≤ 100 := by
    rcases piPhase_tmcBuffer g1 now s with he | he <;> rw [he]
    · exact h
    · exact ⟨List.Pairwise.nil, by simp⟩
  unfold decodeRdsGroup handleGroupBody dispatchGroup
  dsimp only
  split
  · rw [handle0_tmcBuffer]
    exact hphase
  split
  · exact ⟨handleTmc_pairwise _ _ _ _ _ _ hphase.1, handleTmc_length _ _ _ _ _ _ hphase.2⟩
  split
  · exact hphase
  split
  · exact hphase
  split
  · exact hphase
  split
  · rw [handle3A_tmcBuffer]
    exact hphase
  split
  · exact hphase
  split
  · rw [handle4A_tmcBuffer]
    exact hphase
  split
  · exact hphase
  split
  · exact hphase
  · exact hphase

theorem runGroups_tmc_inv (flags : Flags) (now : Nat) (gs : List GroupBlocks) :
    ∀ s : DecoderState,
      (List.Pairwise (fun a b => tmcKey a ≠ tmcKey b) s.tmcBuffer ∧
       s.tmcBuffer.length ≤ 100) →
      (List.Pairwise (fun a b => tmcKey a ≠ tmcKey b)
          (runGroups flags now gs s).tmcBuffer ∧
       (runGroups flags now gs s).tmcBuffer.length ≤ 100) := by
  induction gs with
  | nil => exact fun s h => h
  | cons g gs ih =>
      intro s h
      exact ih _ (decode_tmc_inv flags now g.g1 g.g2 g.g3 g.g4 s h)

theorem decode_8a_eq (flags : Flags) (now g1 g2 g3 g4 : Nat) (s : DecoderState)
    (htv : (g2 >>> 11) &&& 31 = 16) :
    decodeRdsGroup flags now g1 g2 g3 g4 s
      = handleTmc flags now g2 g3 g4
          (commonPhase flags now g1 g2 g3 g4 (piPhase g1 now s)) := by
  unfold decodeRdsGroup handleGroupBody dispatchGroup
  dsimp only
  rw [htv]
  norm_num

theorem handleTmc_user (flags : Flags) (now g2 g3 g4 : Nat) (s : DecoderState)
    (ha : flags.tmcActive = true) (hp : flags.tmcPaused = false)
    (ht : bitOf g2 4 = false) :
    (s.tmcBuffer.any
        (tmcMatches (g4 &&& 4095) (((g3 &&& 255) <<< 3) ||| ((g4 >>> 12) &&& 7))
          (bitOf g3 11) ((g3 >>> 8) &&& 7)) = true →
      List.Pairwise (fun a b => tmcKey a ≠ tmcKey b) s.tmcBuffer →
      (handleTmc flags now g2 g3 g4 s).tmcBuffer
        = s.tmcBuffer.map (fun m =>
            if tmcMatches (g4 &&& 4095) (((g3 &&& 255) <<< 3) ||| ((g4 >>> 12) &&& 7))
                (bitOf g3 11) ((g3 >>> 8) &&& 7) m then
              tmcUpdateExisting now (tmcExpires now ((g3 >>> 13) &&& 7)) m
            else m)) ∧
    (s.tmcBuffer.any
        (tmcMatches (g4 &&& 4095) (((g3 &&& 255) <<< 3) ||| ((g4 >>> 12) &&& 7))
          (bitOf g3 11) ((g3 >>> 8) &&& 7)) = false →
      (handleTmc flags now g2 g3 g4 s).tmcBuffer
        = (if 100 < (mkTmcMessage s.tmcIdCounter now g2 g3 g4 :: s.tmcBuffer).length then
             (mkTmcMessage s.tmcIdCounter now g2 g3 g4 :: s.tmcBuffer).dropLast
           else mkTmcMessage s.tmcIdCounter now g2 g3 g4 :: s.tmcBuffer)) := by
  unfold handleTmc
  dsimp only
  rw [if_pos (And.intro ha hp), ht]
  constructor
  · intro hany hpw
    rw [if_neg (by simp), if_pos hany]
    exact updateFirstMatch_eq_map
      (g4 &&& 4095, ((g3 &&& 255) <<< 3) ||| ((g4 >>> 12) &&& 7),
        bitOf g3 11, (g3 >>> 8) &&& 7) _ _
      (fun m => tmcMatches_iff _ _ _ _ m) s.tmcBuffer hpw
  · intro hany
    rw [if_neg (by simp), if_neg (by rw [hany]; simp)]


/-- Host flags with TMC reception enabled and not paused. -/
def tmcOnFlags : Flags := { analyzerActive := false, tmcActive := true, tmcPaused := false }

/-- C5: in every state reachable from the initial one, the stored TMC
messages have pairwise distinct `(location, event, direction, extent)` keys
and number at most 100; an incoming 8A user message that matches a stored
key overwrites that entry's receipt and expiry times and increments its
update counter, leaving everything else in place, and otherwise the fresh
message is prepended with the oldest entry dropped beyond 100. -/
theorem c5_tmc_dedup :
    (∀ (flags : Flags) (now : Nat) (gs : List GroupBlocks),
       List.Pairwise (fun a b => tmcKey a ≠ tmcKey b)
         (runGroups flags now gs initialState).tmcBuffer ∧
       (runGroups flags now gs initialState).tmcBuffer.length ≤ 100) ∧
    (∀ (flags : Flags) (now g1 g2 g3 g4 : Nat) (s : DecoderState),
       flags.tmcActive = true → flags.tmcPaused = false →
       (g2 >>> 11) &&& 31 = 16 → bitOf g2 4 = false →
       ((piPhase g1 now s).tmcBuffer.any
           (tmcMatches (g4 &&& 4095) (((g3 &&& 255) <<< 3) ||| ((g4 >>> 12) &&& 7))
             (bitOf g3 11) ((g3 >>> 8) &&& 7)) = true →
         List.Pairwise (fun a b => tmcKey a ≠ tmcKey b) (piPhase g1 now s).tmcBuffer →
         (decodeRdsGroup flags now g1 g2 g3 g4 s).tmcBuffer
           = (piPhase g1 now s).tmcBuffer.map (fun m =>
               if tmcMatches (g4 &&& 4095) (((g3 &&& 255) <<< 3) ||| ((g4 >>> 12) &&& 7))
                   (bitOf g3 11) ((g3 >>> 8) &&& 7) m then
                 tmcUpdateExisting now (tmcExpires now ((g3 >>> 13) &&& 7)) m
               else m)) ∧
       ((piPhase g1 now s).tmcBuffer.any
           (tmcMatches (g4 &&& 4095) (((g3 &&& 255) <<< 3) ||| ((g4 >>> 12) &&& 7))
             (bitOf g3 11) ((g3 >>> 8) &&& 7)) = false →
         (decodeRdsGroup flags now g1 g2 g3 g4 s).tmcBuffer
           = (if 100 < (mkTmcMessage (piPhase g1 now s).tmcIdCounter now g2 g3 g4
                          :: (piPhase g1 now s).tmcBuffer).length then
                (mkTmcMessage (piPhase g1 now s).tmcIdCounter now g2 g3 g4
                  :: (piPhase g1 now s).tmcBuffer).dropLast
              else mkTmcMessage (piPhase g1 now s).tmcIdCounter now g2 g3 g4
                  :: (piPhase g1 now s).tmcBuffer))) := by
  constructor
  · intro flags now gs
    exact runGroups_tmc_inv flags now gs initialState ⟨List.Pairwise.nil, by simp [initialState]⟩
  · intro flags now g1 g2 g3 g4 s ha hp htv ht
    rw [decode_8a_eq flags now g1 g2 g3 g4 s htv]
    exact handleTmc_user flags now g2 g3 g4 _ ha hp ht

/-- Witness for C5: the same 8A user message (location 1234, event 101,
direction false, extent 2) fed twice; the second one merges into the stored
entry. -/
theorem c5_tmc_dedup_witness :
    (decodeRdsGroup tmcOnFlags 5 4660 32768 8716 21714
        (decodeRdsGroup tmcOnFlags 0 4660 32768 8716 21714 initialState)).tmcBuffer
      = (piPhase 4660 5
            (decodeRdsGroup tmcOnFlags 0 4660 32768 8716 21714 initialState)).tmcBuffer.map
          (fun m =>
            if tmcMatches (21714 &&& 4095) (((8716 &&& 255) <<< 3) ||| ((21714 >>> 12) &&& 7))
                (bitOf 8716 11) ((8716 >>> 8) &&& 7) m then
              tmcUpdateExisting 5 (tmcExpires 5 ((8716 >>> 13) &&& 7)) m
            else m) :=
  (c5_tmc_dedup.2 tmcOnFlags 5 4660 32768 8716 21714
      (decodeRdsGroup tmcOnFlags 0 4660 32768 8716 21714 initialState)
      rfl rfl (by decide) (by decide)).1 (by decide) (by decide)


theorem updateBer_full (b : Bool) (w : List Nat) (h : w.length = 40) :
    updateBer b w = w.tail ++ [if b then 1 else 0] := by
  unfold updateBer
  dsimp only
  rw [if_pos (by simp [h])]
  cases w with
  | nil => simp at h
  | cons a t => rfl

theorem updateBer_not_full (b : Bool) (w : List Nat) (h : w.length < 40) :
    updateBer b w = w ++ [if b then 1 else 0] := by
  unfold updateBer
  dsimp only
  rw [if_neg (by simp; omega)]

theorem updateBer_length (b : Bool) (w : List Nat) (h : w.length ≤ 40) :
    (updateBer b w).length ≤ 40 := by
  rcases Nat.lt_or_ge w.length 40 with hlt | hge
  · rw [updateBer_not_full b w hlt]
    simp
    omega
  · have heq : w.length = 40 := le_antisymm h hge
    rw [updateBer_full b w heq]
    simp
    omega

theorem piTrack_bg (g1 : Nat) (s : DecoderState) :
    (piTrack g1 s).berHistory = s.berHistory ∧ (piTrack g1 s).graceCounter = s.graceCounter := by
  unfold piTrack
  split <;> exact ⟨rfl, rfl⟩

theorem piPhase_bg (g1 now : Nat) (s : DecoderState) :
    ((piPhase g1 now s).berHistory = s.berHistory ∧
     (piPhase g1 now s).graceCounter = s.graceCounter) ∨
    ((piPhase g1 now s).berHistory = List.replicate 40 0 ∧
     (piPhase g1 now s).graceCounter = 10) := by
  unfold piPhase
  dsimp only
  split
  · split
    · exact Or.inr ⟨rfl, rfl⟩
    · exact Or.inl (piTrack_bg g1 s)
  · exact Or.inl (piTrack_bg g1 s)

theorem handle0_bg (a : Bool) (g2 g3 g4 : Nat) (s : DecoderState) :
    (handle0 a g2 g3 g4 s).berHistory = s.berHistory ∧
    (handle0 a g2 g3 g4 s).graceCounter = s.graceCounter := by
  unfold handle0
  dsimp only
  split <;> exact ⟨rfl, rfl⟩

theorem handle3A_bg (g2 g3 g4 : Nat) (s : DecoderState) :
    (handle3A g2 g3 g4 s).berHistory = s.berHistory ∧
    (handle3A g2 g3 g4 s).graceCounter = s.graceCounter := by
  unfold handle3A
  split <;> exact ⟨rfl, rfl⟩

theorem handle4A_bg (g2 g3 g4 : Nat) (s : DecoderState) :
    (handle4A g2 g3 g4 s).berHistory = s.berHistory ∧
    (handle4A g2 g3 g4 s).graceCounter = s.graceCounter := by
  unfold handle4A
  dsimp only
  split <;> exact ⟨rfl, rfl⟩

set_option maxHeartbeats 2000000 in
theorem dispatchGroup_bg (flags : Flags) (now g1 g2 g3 g4 : Nat) (s : DecoderState) :
    (dispatchGroup flags now g1 g2 g3 g4 s).berHistory = s.berHistory ∧
    (dispatchGroup flags now g1 g2 g3 g4 s).graceCounter = s.graceCounter := by
  unfold dispatchGroup
  dsimp only
  split
  · exact handle0_bg _ _ _ _ _
  split
  · exact ⟨rfl, rfl⟩
  split
  · exact ⟨rfl, rfl⟩
  split
  · exact ⟨rfl, rfl⟩
  split
  · exact ⟨rfl, rfl⟩
  split
  · exact handle3A_bg _ _ _ _
  split
  · exact ⟨rfl, rfl⟩
  split
  · exact handle4A_bg _ _ _ _
  split
  · exact ⟨rfl, rfl⟩
  split
  · exact ⟨rfl, rfl⟩
  · exact ⟨rfl, rfl⟩

theorem decode_bg (flags : Flags) (now g1 g2 g3 g4 : Nat) (s : DecoderState) :
    ((decodeRdsGroup flags now g1 g2 g3 g4 s).berHistory = s.berHistory ∧
     (decodeRdsGroup flags now g1 g2 g3 g4 s).graceCounter = s.graceCounter) ∨
    ((decodeRdsGroup flags now g1 g2 g3 g4 s).berHistory = List.replicate 40 0 ∧
     (decodeRdsGroup flags now g1 g2 g3 g4 s).graceCounter = 10) := by
  have hd := dispatchGroup_bg flags now g1 g2 g3 g4
    (commonPhase flags now g1 g2 g3 g4 (piPhase g1 now s))
  have hcp : (commonPhase flags now g1 g2 g3 g4 (piPhase g1 now s)).berHistory
      = (piPhase g1 now s).berHistory := rfl
  have hcp2 : (commonPhase flags now g1 g2 g3 g4 (piPhase g1 now s)).graceCounter
      = (piPhase g1 now s).graceCounter := rfl
  rcases piPhase_bg g1 now s with ⟨h1, h2⟩ | ⟨h1, h2⟩
  · exact Or.inl ⟨hd.1.trans (hcp.trans h1), hd.2.trans (hcp2.trans h2)⟩
  · exact Or.inr ⟨hd.1.trans (hcp.trans h1), hd.2.trans (hcp2.trans h2)⟩

theorem berAdvanceSuccess_grace (s : DecoderState) (h : s.graceCounter ≠ 0) :
    (berAdvanceSuccess s).berHistory = s.berHistory ∧
    (berAdvanceSuccess s).graceCounter = s.graceCounter - 1 := by
  unfold berAdvanceSuccess
  rw [if_neg h]
  exact ⟨rfl, rfl⟩

theorem berAdvanceSuccess_live (s : DecoderState) (h : s.graceCounter = 0) :
    (berAdvanceSuccess s).berHistory = updateBer false s.berHistory := by
  unfold berAdvanceSuccess
  rw [if_pos h]

theorem ingestCorrupt_ber (flags : Flags) (s : DecoderState) :
    (ingestCorrupt flags s).berHistory = updateBer true s.berHistory := by
  unfold ingestCorrupt
  dsimp only
  split <;> rfl

theorem ingestOverflow_ber (s : DecoderState) :
    (s.graceCounter = 0 → (ingestOverflow s).berHistory = updateBer true s.berHistory) ∧
    (s.graceCounter ≠ 0 → (ingestOverflow s).berHistory = s.berHistory) := by
  unfold ingestOverflow
  constructor
  · intro h
    rw [if_pos h]
  · intro h
    rw [if_neg h]

theorem ingestStep_window_le (flags : Flags) (now : Nat) (ev : IngestEvent)
    (s : DecoderState) (h : s.berHistory.length ≤ 40) :
    (ingestStep flags now s ev).berHistory.length ≤ 40 := by
  cases ev with
  | group g =>
      show (berAdvanceSuccess _).berHistory.length ≤ 40
      set s1 := decodeRdsGroup flags now g.g1 g.g2 g.g3 g.g4 s with hs1
      have hw : ({ s1 with packetCount := s1.packetCount + 1 } : DecoderState).berHistory.length ≤ 40 := by
        show s1.berHistory.length ≤ 40
        rcases decode_bg flags now g.g1 g.g2 g.g3 g.g4 s with ⟨h1, _⟩ | ⟨h1, _⟩ <;> rw [h1]
        · exact h
        · simp
      by_cases hg : ({ s1 with packetCount := s1.packetCount + 1 } : DecoderState).graceCounter = 0
      · rw [berAdvanceSuccess_live _ hg]
        exact updateBer_length _ _ hw
      · rw [(berAdvanceSuccess_grace _ hg).1]
        exact hw
  | corrupt =>
      rw [show (ingestStep flags now s IngestEvent.corrupt).berHistory
            = (ingestCorrupt flags s).berHistory from rfl, ingestCorrupt_ber]
      exact updateBer_length _ _ h
  | overflow =>
      show (ingestOverflow s).berHistory.length ≤ 40
      by_cases hg : s.graceCounter = 0
      · rw [(ingestOverflow_ber s).1 hg]
        exact updateBer_length _ _ h
      · rw [(ingestOverflow_ber s).2 hg]
        exact h

theorem runIngest_window_le (flags : Flags) (now : Nat) (evs : List IngestEvent) :
    ∀ s : DecoderState, s.berHistory.length ≤ 40 →
      (runIngest flags now evs s).berHistory.length ≤ 40 := by
  induction evs with
  | nil => exact fun s h => h
  | cons ev evs ih =>
      intro s h
      exact ih _ (ingestStep_window_le flags now ev s h)

theorem publishTick_ber (flags : Flags) (now : Nat) (prev : RdsSnapshot)
    (s : DecoderState) (hd : s.isDirty = true) :
    (0 < s.graceCounter → (publishTick flags now prev s).2.ber = 0) ∧
    (s.graceCounter = 0 → (publishTick flags now prev s).2.ber = berPercent s.berHistory) := by
  unfold publishTick
  rw [if_pos (Or.inl hd)]
  constructor
  · intro hg
    exact if_pos hg
  · intro hg
    exact if_neg (by omega)

theorem berPercent_mean (w : List Nat) (h : w ≠ []) :
    berPercent w = 100 * ((w.sum : ℚ) / (w.length : ℚ)) := by
  unfold berPercent
  rw [if_neg (by simpa using h)]
  ring


/-- C7: the BER window never exceeds 40 entries along any sequence of
ingester outcomes; a successful group during grace only decrements the
grace counter and leaves the window alone, after grace it pushes a 0; a
corrupted tuple always pushes a 1; a push pops the oldest entry exactly
when the window is full; and the published BER is 0 whenever the grace
counter is positive and otherwise 100 times the mean of the window. -/
theorem c7_ber_window :
    (∀ (flags : Flags) (now : Nat) (evs : List IngestEvent) (s : DecoderState),
       s.berHistory.length ≤ 40 →
       (runIngest flags now evs s).berHistory.length ≤ 40) ∧
    (∀ s : DecoderState, s.graceCounter ≠ 0 →
       (berAdvanceSuccess s).berHistory = s.berHistory ∧
       (berAdvanceSuccess s).graceCounter = s.graceCounter - 1) ∧
    (∀ s : DecoderState, s.graceCounter = 0 →
       (berAdvanceSuccess s).berHistory = updateBer false s.berHistory) ∧
    (∀ (flags : Flags) (s : DecoderState),
       (ingestCorrupt flags s).berHistory = updateBer true s.berHistory) ∧
    (∀ (b : Bool) (w : List Nat), w.length = 40 →
       updateBer b w = w.tail ++ [if b then 1 else 0]) ∧
    (∀ (b : Bool) (w : List Nat), w.length < 40 →
       updateBer b w = w ++ [if b then 1 else 0]) ∧
    (∀ (flags : Flags) (now : Nat) (prev : RdsSnapshot) (s : DecoderState),
       s.isDirty = true →
       (0 < s.graceCounter → (publishTick flags now prev s).2.ber = 0) ∧
       (s.graceCounter = 0 →
         (publishTick flags now prev s).2.ber = berPercent s.berHistory)) ∧
    (∀ w : List Nat, w ≠ [] → berPercent w = 100 * ((w.sum : ℚ) / (w.length : ℚ))) :=
  ⟨fun flags now evs s h => runIngest_window_le flags now evs s h,
   fun s h => berAdvanceSuccess_grace s h,
   fun s h => berAdvanceSuccess_live s h,
   fun flags s => ingestCorrupt_ber flags s,
   fun b w h => updateBer_full b w h,
   fun b w h => updateBer_not_full b w h,
   fun flags now prev s hd => publishTick_ber flags now prev s hd,
   fun w h => berPercent_mean w h⟩

/-- Witness for C7: two corrupted tuples from the initial state keep the
window within bounds, and the snapshot published during grace reports 0. -/
theorem c7_ber_window_witness :
    (runIngest offFlags 0 [IngestEvent.corrupt, IngestEvent.corrupt]
        initialState).berHistory.length ≤ 40 ∧
    (publishTick offFlags 0 blankSnapshot
        (decodeRdsGroup offFlags 0 1 0 0 0 initialState)).2.ber = 0 :=
  ⟨c7_ber_window.1 offFlags 0 [IngestEvent.corrupt, IngestEvent.corrupt]
      initialState (by decide),
   (c7_ber_window.2.2.2.2.2.2.1 offFlags 0 blankSnapshot
      (decodeRdsGroup offFlags 0 1 0 0 0 initialState) (by decide)).1 (by decide)⟩


theorem piPhase_cases_eq (g1 now : Nat) (s : DecoderState) :
    piPhase g1 now s = deepResetFields (piTrack g1 s) now ∨
    piPhase g1 now s = piTrack g1 s := by
  unfold piPhase
  dsimp only
  split
  · split
    · exact Or.inl rfl
    · exact Or.inr rfl
  · exact Or.inr rfl

theorem piPhase_of_change (g1 now : Nat) (s : DecoderState)
    (h : (piPhase g1 now s).currentPi ≠ s.currentPi) :
    piPhase g1 now s = deepResetFields (piTrack g1 s) now := by
  rcases piPhase_cases_eq g1 now s with he | he
  · exact he
  · exact absurd (by rw [he]; exact piTrack_currentPi g1 s) h

/-- C2 (amended): whenever a group's processing changes the confirmed PI,
the resulting state is exactly the group-handler body applied to the fully
deep-reset station state — so the first snapshot after a confirmed PI change
shows every per-station field at its initial value except as rewritten by
the confirming group and by any further groups decoded before that snapshot
was published, and the deep-reset state coincides with the initial state on
all per-station fields. -/
theorem c2_deep_reset_atomicity (flags : Flags) (now g1 g2 g3 g4 : Nat)
    (s : DecoderState) (rest : List GroupBlocks)
    (h : (decodeRdsGroup flags now g1 g2 g3 g4 s).currentPi ≠ s.currentPi) :
    runGroups flags now ({ g1 := g1, g2 := g2, g3 := g3, g4 := g4 } :: rest) s
      = runGroups flags now rest
          (handleGroupBody flags now g1 g2 g3 g4 (deepResetFields (piTrack g1 s) now)) ∧
    ((deepResetFields (piTrack g1 s) now).psBuffer = initialState.psBuffer ∧
     (deepResetFields (piTrack g1 s) now).lpsBuffer = initialState.lpsBuffer ∧
     (deepResetFields (piTrack g1 s) now).ptynBuffer = initialState.ptynBuffer ∧
     (deepResetFields (piTrack g1 s) now).rtBuffer0 = initialState.rtBuffer0 ∧
     (deepResetFields (piTrack g1 s) now).rtBuffer1 = initialState.rtBuffer1 ∧
     (deepResetFields (piTrack g1 s) now).rtMask0 = initialState.rtMask0 ∧
     (deepResetFields (piTrack g1 s) now).rtMask1 = initialState.rtMask1 ∧
     (deepResetFields (piTrack g1 s) now).afSet = initialState.afSet ∧
     (deepResetFields (piTrack g1 s) now).afListHead = initialState.afListHead ∧
     (deepResetFields (piTrack g1 s) now).afBMap = initialState.afBMap ∧
     (deepResetFields (piTrack g1 s) now).afType = initialState.afType ∧
     (deepResetFields (piTrack g1 s) now).eonMap = initialState.eonMap ∧
     (deepResetFields (piTrack g1 s) now).tmcBuffer = initialState.tmcBuffer ∧
     (deepResetFields (piTrack g1 s) now).rtPlusTags = initialState.rtPlusTags ∧
     (deepResetFields (piTrack g1 s) now).ecc = initialState.ecc ∧
     (deepResetFields (piTrack g1 s) now).lic = initialState.lic ∧
     (deepResetFields (piTrack g1 s) now).pin = initialState.pin ∧
     (deepResetFields (piTrack g1 s) now).utcTime = initialState.utcTime ∧
     (deepResetFields (piTrack g1 s) now).localTime = initialState.localTime ∧
     (deepResetFields (piTrack g1 s) now).psHistoryBuffer = initialState.psHistoryBuffer ∧
     (deepResetFields (piTrack g1 s) now).rtHistoryBuffer = initialState.rtHistoryBuffer ∧
     (deepResetFields (piTrack g1 s) now).groupCounts = initialState.groupCounts ∧
     (deepResetFields (piTrack g1 s) now).groupTotal = initialState.groupTotal ∧
     (deepResetFields (piTrack g1 s) now).groupSequence = initialState.groupSequence ∧
     (deepResetFields (piTrack g1 s) now).tmcServiceInfo = initialState.tmcServiceInfo ∧
     (deepResetFields (piTrack g1 s) now).graceCounter = initialState.graceCounter ∧
     (deepResetFields (piTrack g1 s) now).berHistory = List.replicate 40 0) := by
  have hphase : (piPhase g1 now s).currentPi ≠ s.currentPi := by
    rw [← (decodeRdsGroup_pi flags now g1 g2 g3 g4 s).1]
    exact h
  constructor
  · show runGroups flags now rest (decodeRdsGroup flags now g1 g2 g3 g4 s) = _
    rw [show decodeRdsGroup flags now g1 g2 g3 g4 s
          = handleGroupBody flags now g1 g2 g3 g4 (piPhase g1 now s) from rfl,
        piPhase_of_change g1 now s hphase]
  · exact ⟨rfl, rfl, rfl, rfl, rfl, rfl, rfl, rfl, rfl, rfl, rfl, rfl, rfl, rfl,
      rfl, rfl, rfl, rfl, rfl, rfl, rfl, rfl, rfl, rfl, rfl, rfl, rfl⟩

/-- First tick of the C2 counterexample: a single 0A group with PI 0x1111. -/
def c2Tick1 : List GroupBlocks := [{ g1 := 4369, g2 := 0, g3 := 0, g4 := 0 }]

/-- A 4A clock group carrying PI 0x2222. -/
def c2G4A : GroupBlocks := { g1 := 8738, g2 := 16385, g3 := 53464, g4 := 59268 }

/-- Second tick: four copies of the 4A group (the fourth confirms the new
PI) followed by a 0A group writing `"AB"` into the PS buffer. -/
def c2Tick2 : List GroupBlocks :=
  [c2G4A, c2G4A, c2G4A, c2G4A, { g1 := 8738, g2 := 0, g3 := 0, g4 := 16706 }]

/-- C2 counterexample: consecutive published snapshots whose PI differs, in
which the PS field is not at its initial value even though the group causing
the PI confirmation (the fourth 4A) left the PS buffer initial — the extra
0A group processed in the same tick repopulated it before publication. -/
theorem c2_deep_reset_atomicity_counterexample :
    (publishTick offFlags 0 blankSnapshot
        (runGroups offFlags 0 c2Tick1 initialState)).2.pi = some 4369 ∧
    (publishTick offFlags 0
        (publishTick offFlags 0 blankSnapshot
          (runGroups offFlags 0 c2Tick1 initialState)).2
        (runGroups offFlags 0 c2Tick2
          (publishTick offFlags 0 blankSnapshot
            (runGroups offFlags 0 c2Tick1 initialState)).1)).2.pi = some 8738 ∧
    (publishTick offFlags 0
        (publishTick offFlags 0 blankSnapshot
          (runGroups offFlags 0 c2Tick1 initialState)).2
        (runGroups offFlags 0 c2Tick2
          (publishTick offFlags 0 blankSnapshot
            (runGroups offFlags 0 c2Tick1 initialState)).1)).2.ps = "AB      " ∧
    "AB      " ≠ "        " ∧
    (runGroups offFlags 0 [c2G4A, c2G4A, c2G4A, c2G4A]
        (publishTick offFlags 0 blankSnapshot
          (runGroups offFlags 0 c2Tick1 initialState)).1).currentPi = some 8738 ∧
    (runGroups offFlags 0 [c2G4A, c2G4A, c2G4A, c2G4A]
        (publishTick offFlags 0 blankSnapshot
          (runGroups offFlags 0 c2Tick1 initialState)).1).psBuffer
      = List.replicate 8 ' ' := by
  refine ⟨?_, ?_, ?_, ?_, ?_, ?_⟩ <;> decide

/-- Witness for C2 at the first confirming group from the initial state. -/
theorem c2_deep_reset_atomicity_witness :
    runGroups offFlags 0 [{ g1 := 1, g2 := 0, g3 := 0, g4 := 0 }] initialState
      = runGroups offFlags 0 []
          (handleGroupBody offFlags 0 1 0 0 0 (deepResetFields (piTrack 1 initialState) 0)) :=
  (c2_deep_reset_atomicity offFlags 0 1 0 0 0 initialState [] (by decide)).1


open RateLimit in
theorem departTime_step_ge (s : RateState) (q : QuerySpec) (hok : q.ok = true) :
    departTime s + 1100 ≤ departTime (stepQuery s q) := by
  have he : departTime (stepQuery s q)
      = max (departTime s + q.duration) ((departTime s + q.duration) + 1100) := by
    simp [stepQuery, departTime, hok]
  rw [he]
  exact Nat.le_trans (by omega) (Nat.le_max_right _ _)

open RateLimit in
/-- C9 (amended): departures of consecutive rate-limited requests are at
least 1100 ms apart provided the requests succeed — `lastQueryTime` is only
advanced on a successful response, so a failed request does not arm the
rate limiter for the next departure. -/
theorem c9_rate_limit (s : RateState) (qs : List QuerySpec)
    (h : ∀ q ∈ qs, q.ok = true) :
    List.Chain' (fun a b => a + 1100 ≤ b) (departures s qs) := by
  induction qs generalizing s with
  | nil => simp [departures]
  | cons q rest ih =>
      have hok : q.ok = true := h q (List.mem_cons_self q rest)
      have hrest : ∀ q2 ∈ rest, q2.ok = true := fun q2 hq2 => h q2 (List.mem_cons_of_mem q hq2)
      show List.Chain' _ (departTime s :: departures (stepQuery s q) rest)
      cases rest with
      | nil => simp [departures]
      | cons q2 rest2 =>
          rw [show departures (stepQuery s q) (q2 :: rest2)
                = departTime (stepQuery s q) :: departures (stepQuery (stepQuery s q) q2) rest2
              from rfl]
          exact List.chain'_cons.mpr
            ⟨departTime_step_ge s q hok, ih (stepQuery s q) hrest⟩

open RateLimit in
/-- C9 counterexample: after a failed request (HTTP error or abort),
`lastQueryTime` is stale, so the next request departs only 100 ms after the
previous one — closer than 1100 ms. -/
theorem c9_rate_limit_counterexample :
    departures { clock := 5000, lastQueryTime := 0 }
        [{ duration := 100, ok := false }, { duration := 0, ok := true }]
      = [5000, 5100] ∧ ¬(5000 + 1100 ≤ 5100) := by
  constructor
  · decide
  · decide

open RateLimit in
/-- Witness for C9 on a two-request all-successful session. -/
theorem c9_rate_limit_witness :
    List.Chain' (fun a b => a + 1100 ≤ b)
      (departures { clock := 0, lastQueryTime := 0 }
        [{ duration := 50, ok := true }, { duration := 10, ok := true }]) :=
  c9_rate_limit { clock := 0, lastQueryTime := 0 }
    [{ duration := 50, ok := true }, { duration := 10, ok := true }] (by decide)


/-! ## Association-list lemmas for the resolver proofs -/

theorem alookup_aset_self {κ α : Type} [DecidableEq κ] (r : List (κ × α)) (k : κ) (v : α) :
    alookup (aset r k v) k = some v := by
  induction r with
  | nil => simp [aset, alookup]
  | cons p rest ih =>
      obtain ⟨k0, v0⟩ := p
      by_cases h : k0 = k
      · simp [aset, h, alookup]
      · simp [aset, h, alookup, ih]

theorem alookup_aset_ne {κ α : Type} [DecidableEq κ] (r : List (κ × α)) (k k' : κ) (v : α)
    (h : k ≠ k') : alookup (aset r k v) k' = alookup r k' := by
  induction r with
  | nil => simp [aset, alookup, h]
  | cons p rest ih =>
      obtain ⟨k0, v0⟩ := p
      by_cases h0 : k0 = k
      · subst h0
        simp [aset, alookup, h]
      · simp [aset, h0, alookup, ih]

theorem alookup_some_mem {κ α : Type} [DecidableEq κ] {r : List (κ × α)} {k : κ} {c : α}
    (h : alookup r k = some c) : (k, c) ∈ r := by
  induction r with
  | nil => simp [alookup] at h
  | cons p rest ih =>
      obtain ⟨k0, v0⟩ := p
      by_cases h0 : k0 = k
      · subst h0
        rw [alookup, if_pos rfl] at h
        injection h with h
        subst h
        exact List.mem_cons_self _ _
      · rw [alookup, if_neg h0] at h
        exact List.mem_cons_of_mem _ (ih h)

namespace Resolver

/-! ### Fold helpers of the batch loop -/

theorem pendBatch_cache (cid tabcd : Nat) :
    ∀ (batch : List Nat) (s : ResolverState),
      (pendBatch cid tabcd batch s).locationCache = s.locationCache := by
  intro batch
  induction batch with
  | nil => intro s; rfl
  | cons x rest ih => intro s; exact ih _

theorem pendBatch_pending (cid tabcd : Nat) :
    ∀ (batch : List Nat) (s : ResolverState) (lcd : Nat), lcd ∉ batch →
      (pendBatch cid tabcd batch s).pendingResolutions (cid, tabcd, lcd)
        = s.pendingResolutions (cid, tabcd, lcd) := by
  intro batch
  induction batch with
  | nil => intro s lcd _; rfl
  | cons x rest ih =>
      intro s lcd h
      have hx : lcd ≠ x := fun e => h (e ▸ List.mem_cons_self x rest)
      exact (ih _ lcd (fun hm => h (List.mem_cons_of_mem x hm))).trans (by simp [updF, hx])

theorem applyResolved_consistent (cid tabcd : Nat) :
    ∀ (resolved results : List (Nat × TmcResolvedLocation)) (s : ResolverState),
      (∀ lcd c, alookup results lcd = some c → s.locationCache (cid, tabcd, lcd) = some c) →
      ∀ lcd c, alookup (applyResolved cid tabcd resolved results s).1 lcd = some c →
        (applyResolved cid tabcd resolved results s).2.locationCache (cid, tabcd, lcd) = some c := by
  intro resolved
  induction resolved with
  | nil => intro results s h; exact h
  | cons p rest ih =>
      intro results s h
      refine ih (aset results p.1 p.2) _ ?_
      intro lcd2 c2 hl
      by_cases he : lcd2 = p.1
      · subst he
        rw [alookup_aset_self] at hl
        injection hl with hl
        show updF s.locationCache (cid, tabcd, p.1) (some p.2) (cid, tabcd, p.1) = some c2
        simp [updF, hl]
      · rw [alookup_aset_ne _ _ _ _ (fun e => he e.symm)] at hl
        show updF s.locationCache (cid, tabcd, p.1) (some p.2) (cid, tabcd, lcd2) = some c2
        simp only [updF]
        rw [if_neg (by simp [he])]
        exact h lcd2 c2 hl

theorem applyResolved_fst_isSome (cid tabcd : Nat) :
    ∀ (resolved results : List (Nat × TmcResolvedLocation)) (s : ResolverState) (lcd : Nat),
      (alookup (applyResolved cid tabcd resolved results s).1 lcd).isSome = true →
      (alookup results lcd).isSome = true ∨ lcd ∈ resolved.map Prod.fst := by
  intro resolved
  induction resolved with
  | nil => intro results s lcd h; exact Or.inl h
  | cons p rest ih =>
      intro results s lcd h
      rcases ih (aset results p.1 p.2) _ lcd h with h2 | h2
      · by_cases he : lcd = p.1
        · subst he
          exact Or.inr (by simp)
        · rw [alookup_aset_ne _ _ _ _ (fun e => he e.symm)] at h2
          exact Or.inl h2
      · exact Or.inr (by simp [h2])

theorem applyResolved_cache_mono (cid tabcd : Nat) :
    ∀ (resolved results : List (Nat × TmcResolvedLocation)) (s : ResolverState) (k : Nat × Nat × Nat),
      (s.locationCache k).isSome = true →
      ((applyResolved cid tabcd resolved results s).2.locationCache k).isSome = true := by
  intro resolved
  induction resolved with
  | nil => intro results s k h; exact h
  | cons p rest ih =>
      intro results s k h
      refine ih _ _ k ?_
      show (updF s.locationCache (cid, tabcd, p.1) (some p.2) k).isSome = true
      by_cases hk : k = (cid, tabcd, p.1) <;> simp [updF, hk, h]

theorem applyResolved_covers (cid tabcd : Nat) :
    ∀ (resolved results : List (Nat × TmcResolvedLocation)) (s : ResolverState)
      (p : Nat × TmcResolvedLocation), p ∈ resolved →
      ((applyResolved cid tabcd resolved results s).2.locationCache (cid, tabcd, p.1)).isSome
        = true := by
  intro resolved
  induction resolved with
  | nil => intro results s p hp; cases hp
  | cons p0 rest ih =>
      intro results s p hp
      rcases List.mem_cons.mp hp with rfl | hp
      · refine applyResolved_cache_mono cid tabcd rest _ _ _ ?_
        simp [updF]
      · exact ih _ _ p hp

theorem applyResolved_pending (cid tabcd : Nat) :
    ∀ (resolved results : List (Nat × TmcResolvedLocation)) (s : ResolverState) (lcd : Nat),
      lcd ∉ resolved.map Prod.fst →
      (applyResolved cid tabcd resolved results s).2.pendingResolutions (cid, tabcd, lcd)
        = s.pendingResolutions (cid, tabcd, lcd) := by
  intro resolved
  induction resolved with
  | nil => intro results s lcd _; rfl
  | cons p rest ih =>
      intro results s lcd h
      have hx : lcd ≠ p.1 := by
        intro e
        exact h (by simp [e])
      refine (ih _ _ lcd (fun hm => h (by simp [List.mem_map] at hm ⊢; tauto))).trans ?_
      simp [updF, hx]

end Resolver


namespace Resolver

theorem cacheNotFound_mono (cid tabcd : Nat) (resolved : List (Nat × TmcResolvedLocation)) :
    ∀ (batch : List Nat) (s : ResolverState) (k : Nat × Nat × Nat),
      (s.locationCache k).isSome = true →
      ((cacheNotFound cid tabcd resolved batch s).locationCache k).isSome = true := by
  intro batch
  induction batch with
  | nil => intro s k h; exact h
  | cons x rest ih =>
      intro s k h
      refine ih _ k ?_
      by_cases hg : (alookup resolved x).isSome = true
      · simpa [cacheNotFound, hg] using h
      · show ((if (alookup resolved x).isSome = true then s else
            { s with
              locationCache := updF s.locationCache (cid, tabcd, x) (some (notFoundLoc x)),
              pendingResolutions := updF s.pendingResolutions (cid, tabcd, x) false
            }).locationCache k).isSome = true
        rw [if_neg hg]
        by_cases hk : k = (cid, tabcd, x) <;> simp [updF, hk, h]

theorem cacheNotFound_consistent (cid tabcd : Nat) (resolved : List (Nat × TmcResolvedLocation)) :
    ∀ (batch : List Nat) (s : ResolverState) (R : List (Nat × TmcResolvedLocation)),
      (∀ lcd ∈ batch, alookup resolved lcd = none → alookup R lcd = none) →
      (∀ lcd c, alookup R lcd = some c → s.locationCache (cid, tabcd, lcd) = some c) →
      ∀ lcd c, alookup R lcd = some c →
        (cacheNotFound cid tabcd resolved batch s).locationCache (cid, tabcd, lcd) = some c := by
  intro batch
  induction batch with
  | nil => intro s R _ h2; exact h2
  | cons x rest ih =>
      intro s R h1 h2
      refine ih _ R (fun lcd hm => h1 lcd (List.mem_cons_of_mem x hm)) ?_
      intro lcd c hl
      by_cases hg : (alookup resolved x).isSome = true
      · show ((if (alookup resolved x).isSome = true then s else
            { s with
              locationCache := updF s.locationCache (cid, tabcd, x) (some (notFoundLoc x)),
              pendingResolutions := updF s.pendingResolutions (cid, tabcd, x) false
            }).locationCache (cid, tabcd, lcd)) = some c
        rw [if_pos hg]
        exact h2 lcd c hl
      · have hresx : alookup resolved x = none := Option.not_isSome_iff_eq_none.mp hg
        have hx : lcd ≠ x := by
          intro e
          rw [e, h1 x (List.mem_cons_self x rest) hresx] at hl
          cases hl
        show ((if (alookup resolved x).isSome = true then s else
            { s with
              locationCache := updF s.locationCache (cid, tabcd, x) (some (notFoundLoc x)),
              pendingResolutions := updF s.pendingResolutions (cid, tabcd, x) false
            }).locationCache (cid, tabcd, lcd)) = some c
        rw [if_neg hg]
        show updF s.locationCache (cid, tabcd, x) (some (notFoundLoc x)) (cid, tabcd, lcd) = some c
        simp only [updF]
        rw [if_neg (by simp [hx])]
        exact h2 lcd c hl

theorem cacheNotFound_covers (cid tabcd : Nat) (resolved : List (Nat × TmcResolvedLocation)) :
    ∀ (batch : List Nat) (s : ResolverState) (lcd : Nat), lcd ∈ batch →
      alookup resolved lcd = none →
      ((cacheNotFound cid tabcd resolved batch s).locationCache (cid, tabcd, lcd)).isSome
        = true := by
  intro batch
  induction batch with
  | nil => intro s lcd hm; cases hm
  | cons x rest ih =>
      intro s lcd hm hres
      rcases List.mem_cons.mp hm with rfl | hm
      · refine cacheNotFound_mono cid tabcd resolved rest _ _ ?_
        show (((if (alookup resolved lcd).isSome = true then s else
            { s with
              locationCache := updF s.locationCache (cid, tabcd, lcd) (some (notFoundLoc lcd)),
              pendingResolutions := updF s.pendingResolutions (cid, tabcd, lcd) false
            })).locationCache (cid, tabcd, lcd)).isSome = true
        rw [if_neg (by simp [hres])]
        simp [updF]
      · exact ih _ lcd hm hres

theorem cacheNotFound_pending (cid tabcd : Nat) (resolved : List (Nat × TmcResolvedLocation)) :
    ∀ (batch : List Nat) (s : ResolverState) (lcd : Nat), lcd ∉ batch →
      (cacheNotFound cid tabcd resolved batch s).pendingResolutions (cid, tabcd, lcd)
        = s.pendingResolutions (cid, tabcd, lcd) := by
  intro batch
  induction batch with
  | nil => intro s lcd _; rfl
  | cons x rest ih =>
      intro s lcd h
      have hx : lcd ≠ x := fun e => h (e ▸ List.mem_cons_self x rest)
      refine (ih _ lcd (fun hm => h (List.mem_cons_of_mem x hm))).trans ?_
      show ((if (alookup resolved x).isSome = true then s else
          { s with
            locationCache := updF s.locationCache (cid, tabcd, x) (some (notFoundLoc x)),
            pendingResolutions := updF s.pendingResolutions (cid, tabcd, x) false
          }).pendingResolutions (cid, tabcd, lcd)) = s.pendingResolutions (cid, tabcd, lcd)
      by_cases hg : (alookup resolved x).isSome = true
      · rw [if_pos hg]
      · rw [if_neg hg]
        show updF s.pendingResolutions (cid, tabcd, x) false (cid, tabcd, lcd)
          = s.pendingResolutions (cid, tabcd, lcd)
        simp [updF, hx]

theorem cacheAllNotFound_mono (cid tabcd : Nat) :
    ∀ (lcds : List Nat) (s : ResolverState) (k : Nat × Nat × Nat),
      (s.locationCache k).isSome = true →
      ((cacheAllNotFound cid tabcd lcds s).locationCache k).isSome = true := by
  intro lcds
  induction lcds with
  | nil => intro s k h; exact h
  | cons x rest ih =>
      intro s k h
      refine ih _ k ?_
      show (updF s.locationCache (cid, tabcd, x) (some (notFoundLoc x)) k).isSome = true
      by_cases hk : k = (cid, tabcd, x) <;> simp [updF, hk, h]

theorem cacheAllNotFound_covers (cid tabcd : Nat) :
    ∀ (lcds : List Nat) (s : ResolverState) (lcd : Nat), lcd ∈ lcds →
      ((cacheAllNotFound cid tabcd lcds s).locationCache (cid, tabcd, lcd)).isSome = true := by
  intro lcds
  induction lcds with
  | nil => intro s lcd hm; cases hm
  | cons x rest ih =>
      intro s lcd hm
      rcases List.mem_cons.mp hm with rfl | hm
      · refine cacheAllNotFound_mono cid tabcd rest _ _ ?_
        simp [updF]
      · exact ih _ lcd hm

theorem cacheAllNotFound_preserve (cid tabcd : Nat) :
    ∀ (lcds : List Nat) (s : ResolverState) (lcd : Nat), lcd ∉ lcds →
      (cacheAllNotFound cid tabcd lcds s).locationCache (cid, tabcd, lcd)
        = s.locationCache (cid, tabcd, lcd) := by
  intro lcds
  induction lcds with
  | nil => intro s lcd _; rfl
  | cons x rest ih =>
      intro s lcd h
      have hx : lcd ≠ x := fun e => h (e ▸ List.mem_cons_self x rest)
      refine (ih _ lcd (fun hm => h (List.mem_cons_of_mem x hm))).trans ?_
      show updF s.locationCache (cid, tabcd, x) (some (notFoundLoc x)) (cid, tabcd, lcd)
        = s.locationCache (cid, tabcd, lcd)
      simp [updF, hx]

theorem cacheAllNotFound_pending (cid tabcd : Nat) :
    ∀ (lcds : List Nat) (s : ResolverState),
      (cacheAllNotFound cid tabcd lcds s).pendingResolutions = s.pendingResolutions := by
  intro lcds
  induction lcds with
  | nil => intro s; rfl
  | cons x rest ih => intro s; exact ih _

theorem checkAvailability_cache (env : OverpassEnv) (cid tabcd : Nat) (s : ResolverState) :
    (checkAvailability env cid tabcd s).2.locationCache = s.locationCache ∧
    (checkAvailability env cid tabcd s).2.pendingResolutions = s.pendingResolutions := by
  unfold checkAvailability
  split
  · exact ⟨rfl, rfl⟩
  · dsimp only
    split
    · exact ⟨rfl, rfl⟩
    · split
      · exact ⟨rfl, rfl⟩
      · exact ⟨rfl, rfl⟩

theorem queryBatch_fst (env : OverpassEnv) (lcds : List Nat) (cid tabcd : Nat)
    (fmt : AvailFormat) (s : ResolverState) :
    (queryBatch env lcds cid tabcd fmt s).1 = batchResp env lcds cid tabcd fmt := rfl

theorem queryBatch_snd (env : OverpassEnv) (lcds : List Nat) (cid tabcd : Nat)
    (fmt : AvailFormat) (s : ResolverState) :
    (queryBatch env lcds cid tabcd fmt s).2
      = { s with requestCount := s.requestCount + 1 } := rfl

theorem chunk50_flatten : ∀ l : List Nat, (chunk50 l).flatten = l := by
  intro l
  induction l using chunk50.induct with
  | case1 => simp [chunk50]
  | case2 x rest ih =>
      rw [chunk50]
      rw [List.flatten_cons, ih]
      exact List.take_append_drop 50 (x :: rest)

end Resolver


namespace Resolver

theorem cacheScanGo_snd (s : ResolverState) (cid tabcd : Nat) :
    ∀ (L : List Nat) (r : List (Nat × TmcResolvedLocation)) (u : List Nat),
      (cacheScanGo s cid tabcd L r u).2
        = u ++ L.filter (fun lcd =>
            ((s.locationCache (cid, tabcd, lcd)).isNone
              && !(s.pendingResolutions (cid, tabcd, lcd)))) := by
  intro L
  induction L with
  | nil => intro r u; simp [cacheScanGo]
  | cons lcd rest ih =>
      intro r u
      cases hc : s.locationCache (cid, tabcd, lcd) with
      | some c =>
          simp only [cacheScanGo, hc, ih, List.filter_cons]
          simp
      | none =>
          by_cases hp : s.pendingResolutions (cid, tabcd, lcd) = true
          · simp only [cacheScanGo, hc, List.filter_cons]
            rw [if_pos hp, ih]
            simp [hp]
          · simp only [cacheScanGo, hc, List.filter_cons]
            rw [if_neg hp, ih]
            simp only [Option.isNone_none, Bool.true_and]
            rw [show (!s.pendingResolutions (cid, tabcd, lcd)) = true by
              simp [Bool.not_eq_true'] at hp ⊢
              exact hp]
            simp

theorem cacheScanGo_fst_lookup (s : ResolverState) (cid tabcd : Nat) :
    ∀ (L : List Nat) (r : List (Nat × TmcResolvedLocation)) (u : List Nat)
      (lcd : Nat) (c : TmcResolvedLocation),
      s.locationCache (cid, tabcd, lcd) = some c →
      (lcd ∈ L ∨ alookup r lcd = some c) →
      alookup (cacheScanGo s cid tabcd L r u).1 lcd = some c := by
  intro L
  induction L with
  | nil =>
      intro r u lcd c hc h
      rcases h with h | h
      · cases h
      · simpa [cacheScanGo] using h
  | cons x rest ih =>
      intro r u lcd c hc h
      cases hx : s.locationCache (cid, tabcd, x) with
      | some cx =>
          simp only [cacheScanGo, hx]
          refine ih _ u lcd c hc ?_
          rcases h with h | h
          · rcases List.mem_cons.mp h with rfl | hmem
            · right
              rw [hx] at hc
              injection hc with hc
              rw [← hc]
              exact alookup_aset_self r lcd cx
            · exact Or.inl hmem
          · right
            by_cases hlx : lcd = x
            · subst hlx
              rw [hx] at hc
              injection hc with hc
              rw [← hc]
              exact alookup_aset_self r lcd cx
            · rw [alookup_aset_ne r x lcd cx (fun e => hlx e.symm)]
              exact h
      | none =>
          have hlx : lcd ≠ x := by
            intro e
            rw [e, hx] at hc
            cases hc
          have h2 : lcd ∈ rest ∨ alookup r lcd = some c := by
            rcases h with h | h
            · rcases List.mem_cons.mp h with rfl | hmem
              · exact absurd rfl hlx
              · exact Or.inl hmem
            · exact Or.inr h
          by_cases hp : s.pendingResolutions (cid, tabcd, x) = true
          · simp only [cacheScanGo, hx]
            rw [if_pos hp]
            exact ih _ u lcd c hc h2
          · simp only [cacheScanGo, hx]
            rw [if_neg hp]
            exact ih _ _ lcd c hc h2

theorem cacheScanGo_fst_lookup_inv (s : ResolverState) (cid tabcd : Nat) :
    ∀ (L : List Nat) (r : List (Nat × TmcResolvedLocation)) (u : List Nat)
      (lcd : Nat) (c : TmcResolvedLocation),
      alookup (cacheScanGo s cid tabcd L r u).1 lcd = some c →
      alookup r lcd = some c ∨ (lcd ∈ L ∧ s.locationCache (cid, tabcd, lcd) = some c) := by
  intro L
  induction L with
  | nil =>
      intro r u lcd c h
      exact Or.inl (by simpa [cacheScanGo] using h)
  | cons x rest ih =>
      intro r u lcd c h
      cases hx : s.locationCache (cid, tabcd, x) with
      | some cx =>
          rw [show cacheScanGo s cid tabcd (x :: rest) r u
              = cacheScanGo s cid tabcd rest (aset r x cx) u by
            simp only [cacheScanGo, hx]] at h
          rcases ih _ u lcd c h with h2 | h2
          · by_cases hlx : lcd = x
            · subst hlx
              rw [alookup_aset_self] at h2
              injection h2 with h2
              exact Or.inr ⟨List.mem_cons_self _ _, by rw [hx, h2]⟩
            · rw [alookup_aset_ne r x lcd cx (fun e => hlx e.symm)] at h2
              exact Or.inl h2
          · exact Or.inr ⟨List.mem_cons_of_mem x h2.1, h2.2⟩
      | none =>
          by_cases hp : s.pendingResolutions (cid, tabcd, x) = true
          · rw [show cacheScanGo s cid tabcd (x :: rest) r u
                = cacheScanGo s cid tabcd rest r u by
              simp only [cacheScanGo, hx]
              rw [if_pos hp]] at h
            rcases ih _ u lcd c h with h2 | h2
            · exact Or.inl h2
            · exact Or.inr ⟨List.mem_cons_of_mem x h2.1, h2.2⟩
          · rw [show cacheScanGo s cid tabcd (x :: rest) r u
                = cacheScanGo s cid tabcd rest r (u ++ [x]) by
              simp only [cacheScanGo, hx]
              rw [if_neg hp]] at h
            rcases ih _ _ lcd c h with h2 | h2
            · exact Or.inl h2
            · exact Or.inr ⟨List.mem_cons_of_mem x h2.1, h2.2⟩

end Resolver


theorem alookup_none_not_mem {κ α : Type} [DecidableEq κ] {r : List (κ × α)} {k : κ}
    (h : alookup r k = none) : k ∉ r.map Prod.fst := by
  induction r with
  | nil => simp
  | cons p rest ih =>
      obtain ⟨k0, v0⟩ := p
      by_cases h0 : k0 = k
      · rw [alookup, if_pos h0] at h
        cases h
      · rw [alookup, if_neg h0] at h
        simp only [List.map_cons, List.mem_cons]
        rintro (rfl | hm)
        · exact h0 rfl
        · exact ih h hm

namespace Resolver

theorem processBatches_inv (env : OverpassEnv) (cid tabcd : Nat) (fmt : AvailFormat)
    (HOK : ∀ lcds, ∃ res, batchResp env lcds cid tabcd fmt = Except.ok res
      ∧ ∀ p ∈ res, p.1 ∈ lcds) :
    ∀ (batches : List (List Nat)) (results : List (Nat × TmcResolvedLocation))
      (s : ResolverState),
      (∀ lcd c, alookup results lcd = some c → s.locationCache (cid, tabcd, lcd) = some c) →
      (∀ b ∈ batches, ∀ lcd ∈ b, alookup results lcd = none) →
      List.Pairwise List.Disjoint batches →
      (∀ lcd c, alookup (processBatches env cid tabcd fmt batches results s).1 lcd = some c →
        (processBatches env cid tabcd fmt batches results s).2.locationCache (cid, tabcd, lcd)
          = some c) ∧
      (∀ b ∈ batches, ∀ lcd ∈ b,
        ((processBatches env cid tabcd fmt batches results s).2.locationCache
          (cid, tabcd, lcd)).isSome = true) ∧
      (∀ k, (s.locationCache k).isSome = true →
        ((processBatches env cid tabcd fmt batches results s).2.locationCache k).isSome
          = true) ∧
      (∀ lcd, (alookup (processBatches env cid tabcd fmt batches results s).1 lcd).isSome
          = true →
        (alookup results lcd).isSome = true ∨ ∃ b ∈ batches, lcd ∈ b) ∧
      (∀ lcd, (∀ b ∈ batches, lcd ∉ b) →
        (processBatches env cid tabcd fmt batches results s).2.pendingResolutions
            (cid, tabcd, lcd)
          = s.pendingResolutions (cid, tabcd, lcd)) := by
  intro batches
  induction batches with
  | nil =>
      intro results s hres hdisj hpair
      exact ⟨fun lcd c h => hres lcd c h, fun b hb => absurd hb (List.not_mem_nil b),
        fun k h => h, fun lcd h => Or.inl h, fun lcd _ => rfl⟩
  | cons batch rest ih =>
      intro results s hres hdisj hpair
      obtain ⟨res, hok, hkeys⟩ := HOK batch
      have hstep : processBatches env cid tabcd fmt (batch :: rest) results s
          = processBatches env cid tabcd fmt rest
              (applyResolved cid tabcd res results
                { pendBatch cid tabcd batch s with
                  requestCount := (pendBatch cid tabcd batch s).requestCount + 1 }).1
              (cacheNotFound cid tabcd res batch
                (applyResolved cid tabcd res results
                  { pendBatch cid tabcd batch s with
                    requestCount := (pendBatch cid tabcd batch s).requestCount + 1 }).2) := by
        simp only [processBatches, queryBatch_fst, queryBatch_snd, hok]
      have hspc : ({ pendBatch cid tabcd batch s with
            requestCount := (pendBatch cid tabcd batch s).requestCount + 1
          } : ResolverState).locationCache = s.locationCache :=
        pendBatch_cache cid tabcd batch s
      have hres2 : ∀ lcd c, alookup results lcd = some c →
          ({ pendBatch cid tabcd batch s with
              requestCount := (pendBatch cid tabcd batch s).requestCount + 1
            } : ResolverState).locationCache (cid, tabcd, lcd) = some c := by
        intro lcd c h
        rw [hspc]
        exact hres lcd c h
      have hA1 := applyResolved_consistent cid tabcd res results _ hres2
      have hmemb : ∀ lcd, lcd ∈ res.map Prod.fst → lcd ∈ batch := by
        intro lcd hm
        rcases List.mem_map.mp hm with ⟨p, hp, he⟩
        exact he ▸ hkeys p hp
      have h1A : ∀ lcd ∈ batch, alookup res lcd = none →
          alookup (applyResolved cid tabcd res results
            { pendBatch cid tabcd batch s with
              requestCount := (pendBatch cid tabcd batch s).requestCount + 1 }).1 lcd
            = none := by
        intro lcd hm hres0
        cases hAl : alookup (applyResolved cid tabcd res results
            { pendBatch cid tabcd batch s with
              requestCount := (pendBatch cid tabcd batch s).requestCount + 1 }).1 lcd with
        | none => rfl
        | some c =>
            have hS : (alookup (applyResolved cid tabcd res results
                { pendBatch cid tabcd batch s with
                  requestCount := (pendBatch cid tabcd batch s).requestCount + 1 }).1
                lcd).isSome = true := by
              rw [hAl]; rfl
            rcases applyResolved_fst_isSome cid tabcd res results _ lcd hS with h2 | h2
            · rw [hdisj batch (List.mem_cons_self batch rest) lcd hm] at h2
              cases h2
            · exact absurd h2 (alookup_none_not_mem hres0)
      have hNcons := cacheNotFound_consistent cid tabcd res batch _ _ h1A hA1
      have hdisj2 : ∀ b ∈ rest, ∀ lcd ∈ b,
          alookup (applyResolved cid tabcd res results
            { pendBatch cid tabcd batch s with
              requestCount := (pendBatch cid tabcd batch s).requestCount + 1 }).1 lcd
            = none := by
        intro b hb lcd hm
        cases hAl : alookup (applyResolved cid tabcd res results
            { pendBatch cid tabcd batch s with
              requestCount := (pendBatch cid tabcd batch s).requestCount + 1 }).1 lcd with
        | none => rfl
        | some c =>
            have hS : (alookup (applyResolved cid tabcd res results
                { pendBatch cid tabcd batch s with
                  requestCount := (pendBatch cid tabcd batch s).requestCount + 1 }).1
                lcd).isSome = true := by
              rw [hAl]; rfl
            rcases applyResolved_fst_isSome cid tabcd res results _ lcd hS with h2 | h2
            · rw [hdisj b (List.mem_cons_of_mem batch hb) lcd hm] at h2
              cases h2
            · have hd : List.Disjoint batch b := (List.pairwise_cons.mp hpair).1 b hb
              exact absurd hm (hd (hmemb lcd h2))
      obtain ⟨P1, P2, P3, P4, P5⟩ := ih _ _ hNcons hdisj2 (List.pairwise_cons.mp hpair).2
      rw [hstep]
      refine ⟨P1, ?_, ?_, ?_, ?_⟩
      · intro b hb lcd hm
        rcases List.mem_cons.mp hb with hbe | hb
        · subst hbe
          cases hresl : alookup res lcd with
          | some c =>
              refine P3 _ ?_
              refine cacheNotFound_mono cid tabcd res b _ _ ?_
              exact applyResolved_covers cid tabcd res results _ (lcd, c)
                (alookup_some_mem hresl)
          | none =>
              refine P3 _ ?_
              exact cacheNotFound_covers cid tabcd res b _ lcd hm hresl
        · exact P2 b hb lcd hm
      · intro k h
        refine P3 k ?_
        refine cacheNotFound_mono cid tabcd res batch _ k ?_
        refine applyResolved_cache_mono cid tabcd res results _ k ?_
        rw [hspc]
        exact h
      · intro lcd h
        rcases P4 lcd h with h2 | h2
        · rcases applyResolved_fst_isSome cid tabcd res results _ lcd h2 with h3 | h3
          · exact Or.inl h3
          · exact Or.inr ⟨batch, List.mem_cons_self batch rest, hmemb lcd h3⟩
        · rcases h2 with ⟨b, hb, hm⟩
          exact Or.inr ⟨b, List.mem_cons_of_mem batch hb, hm⟩
      · intro lcd hnb
        have hnbatch : lcd ∉ batch := hnb batch (List.mem_cons_self batch rest)
        have hnres : lcd ∉ res.map Prod.fst := fun hm => hnbatch (hmemb lcd hm)
        refine (P5 lcd (fun b hb => hnb b (List.mem_cons_of_mem batch hb))).trans ?_
        refine (cacheNotFound_pending cid tabcd res batch _ lcd hnbatch).trans ?_
        refine (applyResolved_pending cid tabcd res results _ lcd hnres).trans ?_
        exact pendBatch_pending cid tabcd batch s lcd hnbatch

end Resolver


namespace Resolver

theorem resolveLocations_early (env : OverpassEnv) (L : List Nat) (cid tabcd : Nat)
    (s : ResolverState) (h : (cacheScanGo s cid tabcd L [] []).2 = []) :
    resolveLocations env L cid tabcd s = ((cacheScanGo s cid tabcd L [] []).1, s) := by
  simp only [resolveLocations]
  rw [if_pos h]

theorem resolveLocations_none (env : OverpassEnv) (L : List Nat) (cid tabcd : Nat)
    (s : ResolverState) (hne : (cacheScanGo s cid tabcd L [] []).2 ≠ [])
    (hav : (checkAvailability env cid tabcd s).1 = AvailFormat.noneAvail) :
    resolveLocations env L cid tabcd s
      = ((cacheScanGo s cid tabcd L [] []).1,
         cacheAllNotFound cid tabcd (cacheScanGo s cid tabcd L [] []).2
           (checkAvailability env cid tabcd s).2) := by
  simp only [resolveLocations]
  rw [if_neg hne, hav]

theorem resolveLocations_batch (env : OverpassEnv) (L : List Nat) (cid tabcd : Nat)
    (s : ResolverState) (fmt : AvailFormat)
    (hne : (cacheScanGo s cid tabcd L [] []).2 ≠ [])
    (hav : (checkAvailability env cid tabcd s).1 = fmt)
    (hfmt : fmt ≠ AvailFormat.noneAvail) :
    resolveLocations env L cid tabcd s
      = processBatches env cid tabcd fmt (chunk50 (cacheScanGo s cid tabcd L [] []).2)
          (cacheScanGo s cid tabcd L [] []).1 (checkAvailability env cid tabcd s).2 := by
  simp only [resolveLocations]
  rw [if_neg hne, hav]
  cases fmt with
  | node => rfl
  | relation => rfl
  | noneAvail => exact absurd rfl hfmt

end Resolver


namespace Resolver

theorem resolver_batch_branch (env : OverpassEnv) (L : List Nat) (cid tabcd : Nat)
    (s0 : ResolverState) (fmt : AvailFormat) (hnd : L.Nodup)
    (HOKf : ∀ lcds, ∃ res, batchResp env lcds cid tabcd fmt = Except.ok res
      ∧ ∀ p ∈ res, p.1 ∈ lcds)
    (h0 : (cacheScanGo s0 cid tabcd L [] []).2 ≠ [])
    (hav : (checkAvailability env cid tabcd s0).1 = fmt)
    (hfmt : fmt ≠ AvailFormat.noneAvail) :
    (resolveLocations env L cid tabcd (resolveLocations env L cid tabcd s0).2).2
      = (resolveLocations env L cid tabcd s0).2 ∧
    ∀ lcd c, alookup (resolveLocations env L cid tabcd s0).1 lcd = some c →
      alookup (resolveLocations env L cid tabcd (resolveLocations env L cid tabcd s0).2).1 lcd
        = some c := by
  have hcav := checkAvailability_cache env cid tabcd s0
  have hu : (cacheScanGo s0 cid tabcd L [] []).2
      = L.filter (fun lcd => ((s0.locationCache (cid, tabcd, lcd)).isNone
          && !(s0.pendingResolutions (cid, tabcd, lcd)))) := by
    rw [cacheScanGo_snd]
    rfl
  have hmemu : ∀ lcd, lcd ∈ (cacheScanGo s0 cid tabcd L [] []).2 →
      (lcd ∈ L ∧ s0.locationCache (cid, tabcd, lcd) = none
        ∧ s0.pendingResolutions (cid, tabcd, lcd) = false) := by
    intro lcd hm
    rw [hu] at hm
    obtain ⟨hL, hp⟩ := List.mem_filter.mp hm
    refine ⟨hL, ?_, ?_⟩
    · have := (Bool.and_eq_true _ _).mp hp
      exact Option.eq_none_iff_forall_not_mem.mpr (by
        intro a ha
        rw [Option.mem_def] at ha
        rw [ha] at this
        simp at this)
    · have := ((Bool.and_eq_true _ _).mp hp).2
      cases hpv : s0.pendingResolutions (cid, tabcd, lcd)
      · rfl
      · rw [hpv] at this
        simp at this
  have hnotu : ∀ lcd ∈ L, lcd ∉ (cacheScanGo s0 cid tabcd L [] []).2 →
      (s0.locationCache (cid, tabcd, lcd)).isSome = true
        ∨ s0.pendingResolutions (cid, tabcd, lcd) = true := by
    intro lcd hL hnm
    by_cases hc : (s0.locationCache (cid, tabcd, lcd)).isSome = true
    · exact Or.inl hc
    · by_cases hp : s0.pendingResolutions (cid, tabcd, lcd) = true
      · exact Or.inr hp
      · exfalso
        apply hnm
        rw [hu]
        refine List.mem_filter.mpr ⟨hL, ?_⟩
        rw [Option.not_isSome_iff_eq_none.mp hc]
        have hpf : s0.pendingResolutions (cid, tabcd, lcd) = false := by
          cases hpv : s0.pendingResolutions (cid, tabcd, lcd)
          · rfl
          · exact absurd hpv hp
        rw [hpf]
        rfl
  have hEq := resolveLocations_batch env L cid tabcd s0 fmt h0 hav hfmt
  have hres0 : ∀ lcd c, alookup (cacheScanGo s0 cid tabcd L [] []).1 lcd = some c →
      (checkAvailability env cid tabcd s0).2.locationCache (cid, tabcd, lcd) = some c := by
    intro lcd c h
    rcases cacheScanGo_fst_lookup_inv s0 cid tabcd L [] [] lcd c h with h2 | h2
    · simp [alookup] at h2
    · rw [hcav.1]
      exact h2.2
  have hflat := chunk50_flatten (cacheScanGo s0 cid tabcd L [] []).2
  have hbmem : ∀ b ∈ chunk50 (cacheScanGo s0 cid tabcd L [] []).2, ∀ lcd ∈ b,
      lcd ∈ (cacheScanGo s0 cid tabcd L [] []).2 := by
    intro b hb lcd hm
    rw [← hflat]
    exact List.mem_flatten.mpr ⟨b, hb, hm⟩
  have hdisj0 : ∀ b ∈ chunk50 (cacheScanGo s0 cid tabcd L [] []).2, ∀ lcd ∈ b,
      alookup (cacheScanGo s0 cid tabcd L [] []).1 lcd = none := by
    intro b hb lcd hm
    have h2 := hmemu lcd (hbmem b hb lcd hm)
    cases hAl : alookup (cacheScanGo s0 cid tabcd L [] []).1 lcd with
    | none => rfl
    | some c =>
        rcases cacheScanGo_fst_lookup_inv s0 cid tabcd L [] [] lcd c hAl with h3 | h3
        · simp [alookup] at h3
        · rw [h2.2.1] at h3
          cases h3.2
  have hpair0 : List.Pairwise List.Disjoint (chunk50 (cacheScanGo s0 cid tabcd L [] []).2) := by
    have hnodup : ((chunk50 (cacheScanGo s0 cid tabcd L [] []).2).flatten).Nodup := by
      rw [hflat, hu]
      exact hnd.filter _
    exact (List.nodup_flatten.mp hnodup).2
  obtain ⟨P1, P2, P3, P4, P5⟩ := processBatches_inv env cid tabcd fmt HOKf
    (chunk50 (cacheScanGo s0 cid tabcd L [] []).2) (cacheScanGo s0 cid tabcd L [] []).1
    (checkAvailability env cid tabcd s0).2 hres0 hdisj0 hpair0
  rw [hEq]
  have hall : ∀ lcd ∈ L,
      ((processBatches env cid tabcd fmt (chunk50 (cacheScanGo s0 cid tabcd L [] []).2)
          (cacheScanGo s0 cid tabcd L [] []).1
          (checkAvailability env cid tabcd s0).2).2.locationCache
        (cid, tabcd, lcd)).isSome = true
      ∨ (processBatches env cid tabcd fmt (chunk50 (cacheScanGo s0 cid tabcd L [] []).2)
          (cacheScanGo s0 cid tabcd L [] []).1
          (checkAvailability env cid tabcd s0).2).2.pendingResolutions (cid, tabcd, lcd)
        = true := by
    intro lcd hm
    by_cases hum : lcd ∈ (cacheScanGo s0 cid tabcd L [] []).2
    · rcases List.mem_flatten.mp (by rw [hflat]; exact hum) with ⟨b, hb, hmb⟩
      exact Or.inl (P2 b hb lcd hmb)
    · rcases hnotu lcd hm hum with hc | hp
      · refine Or.inl (P3 _ ?_)
        rw [hcav.1]
        exact hc
      · refine Or.inr ?_
        rw [P5 lcd (fun b hb hmb => hum (hbmem b hb lcd hmb)), hcav.2]
        exact hp
  have hscan2 : (cacheScanGo
      (processBatches env cid tabcd fmt (chunk50 (cacheScanGo s0 cid tabcd L [] []).2)
        (cacheScanGo s0 cid tabcd L [] []).1 (checkAvailability env cid tabcd s0).2).2
      cid tabcd L [] []).2 = [] := by
    rw [cacheScanGo_snd]
    rw [List.nil_append]
    rw [List.filter_eq_nil_iff]
    intro a ha
    rcases hall a ha with hc | hp
    · rcases Option.isSome_iff_exists.mp hc with ⟨v, hv⟩
      simp [hv]
    · simp [hp]
  rw [resolveLocations_early env L cid tabcd _ hscan2]
  constructor
  · rfl
  · intro lcd c h
    have hc1 := P1 lcd c h
    have hmL : lcd ∈ L := by
      have hS : (alookup (processBatches env cid tabcd fmt
          (chunk50 (cacheScanGo s0 cid tabcd L [] []).2)
          (cacheScanGo s0 cid tabcd L [] []).1
          (checkAvailability env cid tabcd s0).2).1 lcd).isSome = true := by
        rw [h]; rfl
      rcases P4 lcd hS with h2 | h2
      · rcases Option.isSome_iff_exists.mp h2 with ⟨v, hv⟩
        rcases cacheScanGo_fst_lookup_inv s0 cid tabcd L [] [] lcd v hv with h3 | h3
        · simp [alookup] at h3
        · exact h3.1
      · rcases h2 with ⟨b, hb, hmb⟩
        exact (hmemu lcd (hbmem b hb lcd hmb)).1
    exact cacheScanGo_fst_lookup _ cid tabcd L [] [] lcd c hc1 (Or.inl hmL)

end Resolver


namespace Resolver

theorem resolver_none_branch (env : OverpassEnv) (L : List Nat) (cid tabcd : Nat)
    (s0 : ResolverState)
    (h0 : (cacheScanGo s0 cid tabcd L [] []).2 ≠ [])
    (hav : (checkAvailability env cid tabcd s0).1 = AvailFormat.noneAvail) :
    (resolveLocations env L cid tabcd (resolveLocations env L cid tabcd s0).2).2
      = (resolveLocations env L cid tabcd s0).2 ∧
    ∀ lcd c, alookup (resolveLocations env L cid tabcd s0).1 lcd = some c →
      alookup (resolveLocations env L cid tabcd (resolveLocations env L cid tabcd s0).2).1 lcd
        = some c := by
  have hcav := checkAvailability_cache env cid tabcd s0
  have hu : (cacheScanGo s0 cid tabcd L [] []).2
      = L.filter (fun lcd => ((s0.locationCache (cid, tabcd, lcd)).isNone
          && !(s0.pendingResolutions (cid, tabcd, lcd)))) := by
    rw [cacheScanGo_snd]
    rfl
  have hmemu : ∀ lcd, lcd ∈ (cacheScanGo s0 cid tabcd L [] []).2 →
      (lcd ∈ L ∧ s0.locationCache (cid, tabcd, lcd) = none
        ∧ s0.pendingResolutions (cid, tabcd, lcd) = false) := by
    intro lcd hm
    rw [hu] at hm
    obtain ⟨hL, hp⟩ := List.mem_filter.mp hm
    refine ⟨hL, ?_, ?_⟩
    · have := (Bool.and_eq_true _ _).mp hp
      exact Option.eq_none_iff_forall_not_mem.mpr (by
        intro a ha
        rw [Option.mem_def] at ha
        rw [ha] at this
        simp at this)
    · have := ((Bool.and_eq_true _ _).mp hp).2
      cases hpv : s0.pendingResolutions (cid, tabcd, lcd)
      · rfl
      · rw [hpv] at this
        simp at this
  have hnotu : ∀ lcd ∈ L, lcd ∉ (cacheScanGo s0 cid tabcd L [] []).2 →
      (s0.locationCache (cid, tabcd, lcd)).isSome = true
        ∨ s0.pendingResolutions (cid, tabcd, lcd) = true := by
    intro lcd hL hnm
    by_cases hc : (s0.locationCache (cid, tabcd, lcd)).isSome = true
    · exact Or.inl hc
    · by_cases hp : s0.pendingResolutions (cid, tabcd, lcd) = true
      · exact Or.inr hp
      · exfalso
        apply hnm
        rw [hu]
        refine List.mem_filter.mpr ⟨hL, ?_⟩
        rw [Option.not_isSome_iff_eq_none.mp hc]
        have hpf : s0.pendingResolutions (cid, tabcd, lcd) = false := by
          cases hpv : s0.pendingResolutions (cid, tabcd, lcd)
          · rfl
          · exact absurd hpv hp
        rw [hpf]
        rfl
  have hEq := resolveLocations_none env L cid tabcd s0 h0 hav
  rw [hEq]
  have hall : ∀ lcd ∈ L,
      ((cacheAllNotFound cid tabcd (cacheScanGo s0 cid tabcd L [] []).2
          (checkAvailability env cid tabcd s0).2).locationCache (cid, tabcd, lcd)).isSome = true
      ∨ (cacheAllNotFound cid tabcd (cacheScanGo s0 cid tabcd L [] []).2
          (checkAvailability env cid tabcd s0).2).pendingResolutions (cid, tabcd, lcd)
        = true := by
    intro lcd hm
    by_cases hum : lcd ∈ (cacheScanGo s0 cid tabcd L [] []).2
    · exact Or.inl (cacheAllNotFound_covers cid tabcd _ _ lcd hum)
    · rcases hnotu lcd hm hum with hc | hp
      · refine Or.inl ?_
        rw [cacheAllNotFound_preserve cid tabcd _ _ lcd hum, hcav.1]
        exact hc
      · refine Or.inr ?_
        rw [cacheAllNotFound_pending cid tabcd (cacheScanGo s0 cid tabcd L [] []).2
          (checkAvailability env cid tabcd s0).2, hcav.2]
        exact hp
  have hscan2 : (cacheScanGo
      (cacheAllNotFound cid tabcd (cacheScanGo s0 cid tabcd L [] []).2
        (checkAvailability env cid tabcd s0).2) cid tabcd L [] []).2 = [] := by
    rw [cacheScanGo_snd]
    rw [List.nil_append]
    rw [List.filter_eq_nil_iff]
    intro a ha
    rcases hall a ha with hc | hp
    · rcases Option.isSome_iff_exists.mp hc with ⟨v, hv⟩
      simp [hv]
    · simp [hp]
  rw [resolveLocations_early env L cid tabcd _ hscan2]
  constructor
  · rfl
  · intro lcd c h
    rcases cacheScanGo_fst_lookup_inv s0 cid tabcd L [] [] lcd c h with h3 | h3
    · simp [alookup] at h3
    · obtain ⟨hmL, hc0⟩ := h3
      have hnu : lcd ∉ (cacheScanGo s0 cid tabcd L [] []).2 := by
        intro hum
        rw [(hmemu lcd hum).2.1] at hc0
        cases hc0
      have hc1 : (cacheAllNotFound cid tabcd (cacheScanGo s0 cid tabcd L [] []).2
          (checkAvailability env cid tabcd s0).2).locationCache (cid, tabcd, lcd) = some c := by
        rw [cacheAllNotFound_preserve cid tabcd _ _ lcd hnu, hcav.1]
        exact hc0
      exact cacheScanGo_fst_lookup _ cid tabcd L [] [] lcd c hc1 (Or.inl hmL)

end Resolver


namespace Resolver

/-- Well-behaved network: every batch query returns `response.ok` and only
echoes location codes that were asked for (the Overpass query filters on the
exact `lcd` pattern `^(lcd1|lcd2|...)$`). -/
def goodBatches (env : OverpassEnv) (cid tabcd : Nat) : Prop :=
  ∀ (fmt : AvailFormat) (lcds : List Nat), ∃ res,
    batchResp env lcds cid tabcd fmt = Except.ok res ∧ ∀ p ∈ res, p.1 ∈ lcds

/-- C8 (amended): calling `resolveLocations(L, c, t)` twice in succession —
with distinct requested codes, and with every Overpass request of the first
call succeeding — makes the second call a pure cache readout: it returns the
resolver state unchanged (so it performs no network I/O), and its result map
agrees with the first call's map on every code the first call returned.  The
two maps need not be identical, because codes that end up `not_found` in the
first call are negatively cached without being entered in the first call's
result map, so the second call can return a strictly larger map. -/
theorem c8_resolver_idempotence (env : OverpassEnv) (L : List Nat) (cid tabcd : Nat)
    (s0 : ResolverState) (hnd : L.Nodup) (HOK : goodBatches env cid tabcd) :
    (resolveLocations env L cid tabcd (resolveLocations env L cid tabcd s0).2).2
      = (resolveLocations env L cid tabcd s0).2 ∧
    ∀ lcd c, alookup (resolveLocations env L cid tabcd s0).1 lcd = some c →
      alookup (resolveLocations env L cid tabcd (resolveLocations env L cid tabcd s0).2).1 lcd
        = some c := by
  by_cases h0 : (cacheScanGo s0 cid tabcd L [] []).2 = []
  · have h2 : (resolveLocations env L cid tabcd s0).2 = s0 := by
      rw [resolveLocations_early env L cid tabcd s0 h0]
    refine ⟨?_, ?_⟩
    · rw [h2, h2]
    · rw [h2]
      exact fun lcd c h => h
  · cases hav : (checkAvailability env cid tabcd s0).1 with
    | node =>
        exact resolver_batch_branch env L cid tabcd s0 AvailFormat.node hnd
          (HOK AvailFormat.node) h0 hav (fun h => AvailFormat.noConfusion h)
    | relation =>
        exact resolver_batch_branch env L cid tabcd s0 AvailFormat.relation hnd
          (HOK AvailFormat.relation) h0 hav (fun h => AvailFormat.noConfusion h)
    | noneAvail => exact resolver_none_branch env L cid tabcd s0 h0 hav

/-- Overpass environment whose availability probes report zero matching
elements: no TMC location data exists in OSM for any table. -/
def env0 : OverpassEnv where
  nodeCount := fun _ _ => Except.ok 0
  relCount := fun _ _ => Except.ok 0
  nodeBatch := fun _ _ _ => Except.ok []
  relBatch := fun _ _ _ => Except.ok []

/-- C8 counterexample: when no TMC data is available, the first
`resolveLocations([5], 1, 1)` returns the empty map while negatively caching
code 5; the immediate second call serves the cached `not_found` entry, so the
two result maps are not identical. -/
theorem c8_resolver_idempotence_counterexample :
    (resolveLocations env0 [5] 1 1 initialResolverState).1 = [] ∧
    (resolveLocations env0 [5] 1 1
        (resolveLocations env0 [5] 1 1 initialResolverState).2).1
      = [(5, notFoundLoc 5)] := by
  constructor
  · rfl
  · rfl

/-- Overpass environment with node-format data available and successful (if
empty) batch responses. -/
def envW : OverpassEnv where
  nodeCount := fun _ _ => Except.ok 1
  relCount := fun _ _ => Except.ok 0
  nodeBatch := fun _ _ _ => Except.ok []
  relBatch := fun _ _ _ => Except.ok []

/-- Witness for C8 on a concrete environment and request list. -/
theorem c8_resolver_idempotence_witness :
    (resolveLocations envW [7] 2 3 (resolveLocations envW [7] 2 3 initialResolverState).2).2
      = (resolveLocations envW [7] 2 3 initialResolverState).2 ∧
    ∀ lcd c, alookup (resolveLocations envW [7] 2 3 initialResolverState).1 lcd = some c →
      alookup (resolveLocations envW [7] 2 3
          (resolveLocations envW [7] 2 3 initialResolverState).2).1 lcd = some c :=
  c8_resolver_idempotence envW [7] 2 3 initialResolverState (by simp)
    (by
      intro fmt lcds
      refine ⟨[], ?_, ?_⟩
      · cases fmt <;> rfl
      · intro p hp
        cases hp)

end Resolver

end RDSExpert
